import Mathlib

/-!
# Virtual machine resource handler

A shallow embedding of `internal/provider/virtualmachine/resource_virtualmachine.go`:
the four lifecycle handlers `resourceVirtualMachineCreate`, `resourceVirtualMachineUpdate`,
`resourceVirtualMachineRead`, `resourceVirtualMachineDelete` and the helper
`resourceVirtualMachineImport`.

Conventions of the embedding.

* A handler is a pure function from the collaborators (`Env`) and the record (`ResourceData`)
  to a `Run`: the record as the handler leaves it, the client calls it issued, in order, and
  how it ended (diagnostics returned, or a Go runtime panic).
* The control-plane client is a family of response functions. Each receives the calls issued
  so far, so a response may depend on everything that happened before (the cluster is
  stateful), and the arguments of the call.
* A watch is the finite list of events its result channel delivers before it is closed.
  `events.Stop()` only asks the producer to close the channel; the loops of the source keep
  ranging over the channel and never reset their flag, so each loop is a left fold.
* Go maps are association lists; they are only read, written and deleted by key in the
  source, never iterated. A map that may be nil is an `Option`: reading a nil map is fine,
  assigning to an entry of a nil map is a runtime panic.
* The record is typed by its schema and a typed watch delivers objects of the watched kind,
  so the type assertions of the source on record fields and on event objects are not
  modelled as failures; `Spec.Template` is a required field of a virtual machine and its
  dereference is not modelled as a failure either.
-/

namespace Harvester

/-! ## Go values -/

/-- Go error value: the text of `Error()` and whether `apierrors.IsNotFound` holds of it. -/
structure Err where
  msg : String
  isNotFound : Bool
deriving DecidableEq, Repr

/-- Go `map[string]β` (non-nil), as an association list. -/
abbrev GoMap (β : Type) := List (String × β)

namespace GoMap

/-- Comma-ok read `v, ok := m[k]`: `none` when the key is absent. -/
def lookup {β : Type} (m : GoMap β) (k : String) : Option β :=
  (m.find? (fun p => p.1 == k)).map Prod.snd

/-- Assignment `m[k] = v`: the previous binding of `k`, if any, is replaced. -/
def store {β : Type} (m : GoMap β) (k : String) (v : β) : GoMap β :=
  (k, v) :: m.filter (fun p => p.1 != k)

/-- Builtin `delete(m, k)`; a no-op when the key is absent. -/
def delete {β : Type} (m : GoMap β) (k : String) : GoMap β :=
  m.filter (fun p => p.1 != k)

/-- Builtin `len(m)`. -/
def len {β : Type} (m : GoMap β) : Nat := m.length

/-- Keys bound in the map. -/
def keys {β : Type} (m : GoMap β) : List String := m.map Prod.fst

end GoMap

/-- One `diag.Diagnostic` (always of severity Error in this file); only its summary is kept. -/
structure Diagnostic where
  summary : String
deriving DecidableEq, Repr

/-- Go `diag.Diagnostics`; `nil` is the empty list and means success. -/
abbrev Diagnostics := List Diagnostic

/-- Library `diag.FromErr`: `nil` for a nil error, else one diagnostic carrying `err.Error()`. -/
def diagFromErr : Option Err → Diagnostics
  | none => []
  | some err => [⟨err.msg⟩]

/-- Library `diag.Errorf`, applied to the already formatted message. -/
def diagErrorf (message : String) : Diagnostics := [⟨message⟩]

/-! ## Cluster objects -/

/-- Kind `watch.EventType`. -/
inductive EventType where
  | Added | Modified | Deleted | Bookmark | Error
deriving DecidableEq, Repr

/-- One `watch.Event` of a typed watch: the object is of the watched kind `α`
(the source reads it through a type assertion to that kind). -/
structure Event (α : Type) where
  type : EventType
  object : α
deriving DecidableEq, Repr

/-- Entry of `VirtualMachineInstance.Status.Interfaces`. -/
structure VirtualMachineInstanceNetworkInterface where
  name : String
  ip : String
deriving DecidableEq, Repr

/-- The parts of `kubevirtv1.VirtualMachineInstance` the handlers read. -/
structure VirtualMachineInstance where
  name : String
  interfaces : List VirtualMachineInstanceNetworkInterface
deriving DecidableEq, Repr

/-- Entry of `Spec.Template.Spec.Volumes`; `persistentVolumeClaim` is the claim name of the
`PersistentVolumeClaim` source, `none` when that pointer is nil. -/
structure Volume where
  name : String
  persistentVolumeClaim : Option String
deriving DecidableEq, Repr

/-- The parts of `kubevirtv1.VirtualMachine` the handlers read or write.
`annotations = none` is the nil map (`ObjectMeta.Annotations` is optional). -/
structure VirtualMachine where
  name : String
  annotations : Option (GoMap String)
  volumes : List Volume
  ready : Bool
deriving DecidableEq, Repr

/-- Library `DeepCopy` on a virtual machine: the generated deep copy allocates a new
annotations map only when the source map is non-nil, so a nil map stays nil. -/
def VirtualMachine.deepCopy (vm : VirtualMachine) : VirtualMachine := vm

/-- Kind `metav1.DeletionPropagation`. -/
inductive DeletionPropagation where
  | Orphan | Background | Foreground
deriving DecidableEq, Repr

/-- The fields of `metav1.DeleteOptions` the source sets. -/
structure DeleteOptions where
  propagationPolicy : Option DeletionPropagation
deriving DecidableEq, Repr

/-- The fields of `metav1.ListOptions` the source sets. -/
structure ListOptions where
  fieldSelector : String
  timeoutSeconds : Option Int
  watch : Bool
deriving DecidableEq, Repr

/-! ## The record -/

/-- One entry of the `network_interface` list of the record. `waitForLease` is `none` when
the comma-ok assertion to `bool` fails. -/
structure NetworkInterfaceData where
  name : String
  waitForLease : Option Bool
deriving DecidableEq, Repr

/-- One entry of the `disk` list of the record. -/
structure DiskData where
  name : String
  autoDelete : Bool
deriving DecidableEq, Repr

/-- The parts of `schema.ResourceData` the handlers read or write. -/
structure ResourceData where
  id : String
  ns : String
  name : String
  networkInterface : List NetworkInterfaceData
  disk : List DiskData
deriving DecidableEq, Repr

/-- Method `d.SetId`. -/
def ResourceData.setId (d : ResourceData) (v : String) : ResourceData := { d with id := v }

/-- Method `d.GetOk` on the disk list: the flag is false for the zero value (no entries). -/
def ResourceData.getOkDisk (d : ResourceData) : List DiskData × Bool :=
  (d.disk, !d.disk.isEmpty)

/-! ## Calls, collaborators, runs -/

/-- A call on the control-plane client. -/
inductive Call where
  | vmCreate (ns : String) (vm : VirtualMachine)
  | vmGet (ns name : String)
  | vmUpdate (ns : String) (vm : VirtualMachine)
  | vmDelete (ns name : String) (opts : DeleteOptions)
  | vmWatch (ns : String) (opts : ListOptions)
  | vmiGet (ns name : String)
  | vmiWatch (ns : String) (opts : ListOptions)
deriving DecidableEq, Repr

/-- Collaborators of the handlers. The first group is code of the repository that lives in
other packages and the annotation key constant of the platform library; the second group is
the client, each response depending on the calls issued so far. `SG` is the type of the state
getter the importer builds. -/
structure Env (SG : Type) where
  /-- Function `helper.IDParts`. -/
  idParts : String → Except Err (String × String)
  /-- Call `util.ResourceConstruct(d, Creator(c, namespace, name))`. -/
  constructCreator : ResourceData → String → String → Except Err VirtualMachine
  /-- Call `util.ResourceConstruct(d, Updater(c, obj))`. -/
  constructUpdater : ResourceData → VirtualMachine → Except Err VirtualMachine
  /-- Function `importer.ResourceVirtualMachineStateGetter`. -/
  stateGetter : VirtualMachine → Option VirtualMachineInstance → Except Err SG
  /-- Function `util.ResourceStatesSet`: the record after the write and the error, if any. -/
  resourceStatesSet : ResourceData → SG → ResourceData × Option Err
  /-- Constant `harvesterutil.RemovedPVCsAnnotationKey`. -/
  removedPVCsAnnotationKey : String
  vmCreate : List Call → String → VirtualMachine → Except Err VirtualMachine
  vmGet : List Call → String → String → Except Err VirtualMachine
  vmUpdate : List Call → String → VirtualMachine → Except Err VirtualMachine
  vmDelete : List Call → String → String → DeleteOptions → Option Err
  vmWatch : List Call → String → ListOptions → Except Err (List (Event VirtualMachine))
  vmiGet : List Call → String → String → Except Err VirtualMachineInstance
  vmiWatch : List Call → String → ListOptions →
    Except Err (List (Event VirtualMachineInstance))

/-- How a handler ended. -/
inductive Outcome where
  | returned (diags : Diagnostics)
  | panicked (reason : String)
deriving DecidableEq, Repr

/-- A finished run of a handler. -/
structure Run where
  d : ResourceData
  trace : List Call
  outcome : Outcome
deriving DecidableEq, Repr

/-! ## Constants -/

def vmDeleteTimeout : Int := 300
def vmCreateTimeout : Int := 300
def vmLeasesTimeout : Int := 300

/-- The list options of every watch in the source: selector `metadata.name=<name>`. -/
def watchOptions (name : String) (timeoutSeconds : Int) : ListOptions :=
  { fieldSelector := "metadata.name=" ++ name, timeoutSeconds := some timeoutSeconds,
    watch := true }

/-! ## Loops of the source -/

/-- Body of the readiness loop of `resourceVirtualMachineCreate`. -/
def readyStep (isVmReady : Bool) (event : Event VirtualMachine) : Bool :=
  if event.type = EventType.Added ∨ event.type = EventType.Modified then
    if event.object.ready then true else isVmReady
  else isVmReady

/-- Readiness loop of `resourceVirtualMachineCreate`: the final value of `isVmReady`. -/
def readyLoop (events : List (Event VirtualMachine)) : Bool :=
  events.foldl readyStep false

/-- First loop of `resourceVirtualMachineCreate` after the readiness wait: gather the
interfaces for which `wait_for_lease` is set. -/
def gatherWaitForLeases (networkInterfaces : List NetworkInterfaceData) : GoMap Bool :=
  networkInterfaces.foldl
    (fun waitForLeases niData =>
      match niData.waitForLease with
      | some true => GoMap.store waitForLeases niData.name true
      | _ => waitForLeases)
    []

/-- Body of the inner loop over the reported interfaces of one instance event. The test
`len(net.IP) > 0` holds exactly of the non-empty strings. -/
def leaseNetStep (waitForLeases : GoMap Bool) (net : VirtualMachineInstanceNetworkInterface) :
    GoMap Bool :=
  if (GoMap.lookup waitForLeases net.name).isSome ∧ 0 < net.ip.length then
    GoMap.delete waitForLeases net.name
  else waitForLeases

/-- Body of the lease loop: the state is the map `waitForLeases` and the flag `gotip`. -/
def leaseStep (st : GoMap Bool × Bool) (event : Event VirtualMachineInstance) :
    GoMap Bool × Bool :=
  if event.type = EventType.Added ∨ event.type = EventType.Modified then
    let waitForLeases := event.object.interfaces.foldl leaseNetStep st.1
    if GoMap.len waitForLeases = 0 then (waitForLeases, true) else (waitForLeases, st.2)
  else st

/-- Lease loop of `resourceVirtualMachineCreate`: the final value of `gotip`. -/
def leaseLoop (waitForLeases : GoMap Bool) (events : List (Event VirtualMachineInstance)) :
    Bool :=
  (events.foldl leaseStep (waitForLeases, false)).2

/-- Deletion loop of `resourceVirtualMachineDelete`: the final value of `deleted`. -/
def deletedLoop (events : List (Event VirtualMachine)) : Bool :=
  events.foldl (fun deleted event => if event.type = EventType.Deleted then true else deleted)
    false

/-- First loop of `resourceVirtualMachineDelete`: the per-disk auto-delete configuration. -/
def gatherDeleteConfigs (d : ResourceData) : GoMap Bool :=
  match d.getOkDisk with
  | (diskList, true) =>
    diskList.foldl (fun deleteConfigs r => GoMap.store deleteConfigs r.name r.autoDelete) []
  | (_, false) => []

/-- Body of the volume loop of `resourceVirtualMachineDelete`. -/
def removedPVCsStep (deleteConfigs : GoMap Bool) (removedPVCs : List String) (volume : Volume) :
    List String :=
  match volume.persistentVolumeClaim with
  | none => removedPVCs
  | some claimName =>
    match GoMap.lookup deleteConfigs volume.name with
    | some autoDelete => if !autoDelete then removedPVCs else removedPVCs ++ [claimName]
    | none => removedPVCs ++ [claimName]

/-- Volume loop of `resourceVirtualMachineDelete`: the final value of `removedPVCs`. -/
def gatherRemovedPVCs (deleteConfigs : GoMap Bool) (volumes : List Volume) : List String :=
  volumes.foldl (removedPVCsStep deleteConfigs) []

/-- Library `strings.Join`. -/
def stringsJoin (elems : List String) (sep : String) : String := sep.intercalate elems

/-! ## Vocabulary of the statements -/

/-- Event `e` is of type Added or Modified and its reported interface list holds an interface
named `k` with a non-empty IP. -/
def reportsLease (k : String) (e : Event VirtualMachineInstance) : Prop :=
  (e.type = EventType.Added ∨ e.type = EventType.Modified) ∧
    ∃ net ∈ e.object.interfaces, net.name = k ∧ net.ip ≠ ""

instance reportsLeaseDecidable (k : String) (e : Event VirtualMachineInstance) :
    Decidable (reportsLease k e) := by
  unfold reportsLease; infer_instance

/-- The names of `waitForLeases` that some event of the sequence reports with an address. -/
def observedNames (waitForLeases : GoMap Bool) (events : List (Event VirtualMachineInstance)) :
    List String :=
  waitForLeases.keys.filter (fun k => decide (∃ e ∈ events, reportsLease k e))

/-- The Removed-Volume Record the delete handler computes for record `d` and the fetched
virtual machine `vm`. -/
def removedVolumeRecord (d : ResourceData) (vm : VirtualMachine) : List String :=
  gatherRemovedPVCs (gatherDeleteConfigs d) vm.volumes

/-- The object the delete handler submits to Update: the fetched virtual machine, whose
annotations are `annotations`, with the comma-joined record stored under `key`. -/
def annotatedCopy (key : String) (d : ResourceData) (vm : VirtualMachine)
    (annotations : GoMap String) : VirtualMachine :=
  { vm with
    annotations := some (GoMap.store annotations key (stringsJoin (removedVolumeRecord d vm) ",")) }

/-! ## Handlers -/

/-- Source function `resourceVirtualMachineImport`; `trace` is the calls issued by the caller. -/
def resourceVirtualMachineImport {SG : Type} (env : Env SG) (d : ResourceData)
    (trace : List Call) (vm : VirtualMachine) (vmi : Option VirtualMachineInstance) : Run :=
  match env.stateGetter vm vmi with
  | .error err => ⟨d, trace, .returned (diagFromErr (some err))⟩
  | .ok stateGetter =>
    let r := env.resourceStatesSet d stateGetter
    ⟨r.1, trace, .returned (diagFromErr r.2)⟩

/-- Source function `resourceVirtualMachineCreate`. -/
def resourceVirtualMachineCreate {SG : Type} (env : Env SG) (d : ResourceData) : Run :=
  let ns := d.ns
  let name := d.name
  match env.constructCreator d ns name with
  | .error err => ⟨d, [], .returned (diagFromErr (some err))⟩
  | .ok toCreate =>
  let t1 := [Call.vmCreate ns toCreate]
  match env.vmCreate [] ns toCreate with
  | .error err => ⟨d, t1, .returned (diagFromErr (some err))⟩
  | .ok obj =>
  let t2 := t1 ++ [Call.vmWatch ns (watchOptions name vmCreateTimeout)]
  match env.vmWatch t1 ns (watchOptions name vmCreateTimeout) with
  | .error err => ⟨d, t2, .returned (diagFromErr (some err))⟩
  | .ok events =>
  let isVmReady := readyLoop events
  if !isVmReady then
    ⟨d, t2, .returned (diagErrorf ("Timeout waiting for VM " ++ name ++ " to be created"))⟩
  else
  let waitForLeases := gatherWaitForLeases d.networkInterface
  if GoMap.len waitForLeases > 0 then
    let t3 := t2 ++ [Call.vmiWatch ns (watchOptions name vmLeasesTimeout)]
    match env.vmiWatch t2 ns (watchOptions name vmLeasesTimeout) with
    | .error err => ⟨d, t3, .returned (diagFromErr (some err))⟩
    | .ok leaseEvents =>
    let gotip := leaseLoop waitForLeases leaseEvents
    if !gotip then
      ⟨d, t3, .returned (diagErrorf ("Timeout waiting for VM " ++ name ++ " to get IP address"))⟩
    else resourceVirtualMachineImport env d t3 obj none
  else resourceVirtualMachineImport env d t2 obj none

/-- Source function `resourceVirtualMachineRead`; `trace` is the calls issued before it (empty
for a read of its own, the calls of the update when reached from there). -/
def resourceVirtualMachineReadFrom {SG : Type} (env : Env SG) (d : ResourceData)
    (trace : List Call) : Run :=
  match env.idParts d.id with
  | .error err => ⟨d, trace, .returned (diagFromErr (some err))⟩
  | .ok (ns, name) =>
  let t1 := trace ++ [Call.vmGet ns name]
  match env.vmGet trace ns name with
  | .error err =>
    if err.isNotFound then ⟨d.setId "", t1, .returned []⟩
    else ⟨d, t1, .returned (diagFromErr (some err))⟩
  | .ok vm =>
  let t2 := t1 ++ [Call.vmiGet ns name]
  match env.vmiGet t1 ns name with
  | .error err =>
    if err.isNotFound then ⟨d, t2, .returned []⟩
    else ⟨d, t2, .returned (diagFromErr (some err))⟩
  | .ok vmi => resourceVirtualMachineImport env d t2 vm (some vmi)

/-- Source function `resourceVirtualMachineRead` as the framework calls it. -/
def resourceVirtualMachineRead {SG : Type} (env : Env SG) (d : ResourceData) : Run :=
  resourceVirtualMachineReadFrom env d []

/-- Source function `resourceVirtualMachineUpdate`. -/
def resourceVirtualMachineUpdate {SG : Type} (env : Env SG) (d : ResourceData) : Run :=
  match env.idParts d.id with
  | .error err => ⟨d, [], .returned (diagFromErr (some err))⟩
  | .ok (ns, name) =>
  let t1 := [Call.vmGet ns name]
  match env.vmGet [] ns name with
  | .error err =>
    if err.isNotFound then ⟨d.setId "", t1, .returned []⟩
    else ⟨d, t1, .returned (diagFromErr (some err))⟩
  | .ok obj =>
  match env.constructUpdater d obj with
  | .error err => ⟨d, t1, .returned (diagFromErr (some err))⟩
  | .ok toUpdate =>
  let t2 := t1 ++ [Call.vmUpdate ns toUpdate]
  match env.vmUpdate t1 ns toUpdate with
  | .error err => ⟨d, t2, .returned (diagFromErr (some err))⟩
  | .ok _ => resourceVirtualMachineReadFrom env d t2

/-- Source function `resourceVirtualMachineDelete`. The write
`vmCopy.Annotations[key] = ...` is an assignment to an entry of a map: on a nil map the Go
runtime panics. -/
def resourceVirtualMachineDelete {SG : Type} (env : Env SG) (d : ResourceData) : Run :=
  match env.idParts d.id with
  | .error err => ⟨d, [], .returned (diagFromErr (some err))⟩
  | .ok (ns, name) =>
  let t1 := [Call.vmGet ns name]
  match env.vmGet [] ns name with
  | .error err =>
    if err.isNotFound then ⟨d.setId "", t1, .returned []⟩
    else ⟨d, t1, .returned (diagFromErr (some err))⟩
  | .ok vm =>
  let deleteConfigs := gatherDeleteConfigs d
  let removedPVCs := gatherRemovedPVCs deleteConfigs vm.volumes
  let vmCopy := vm.deepCopy
  match vmCopy.annotations with
  | none => ⟨d, t1, .panicked "assignment to entry in nil map"⟩
  | some annotations =>
  let vmCopy : VirtualMachine :=
    { vmCopy with
      annotations := some (GoMap.store annotations env.removedPVCsAnnotationKey
        (stringsJoin removedPVCs ",")) }
  let t2 := t1 ++ [Call.vmUpdate ns vmCopy]
  match env.vmUpdate t1 ns vmCopy with
  | .error err => ⟨d, t2, .returned (diagFromErr (some err))⟩
  | .ok _ =>
  let deleteOptions : DeleteOptions :=
    { propagationPolicy := some DeletionPropagation.Foreground }
  let t3 := t2 ++ [Call.vmDelete ns name deleteOptions]
  let err := env.vmDelete t2 ns name deleteOptions
  if err.any (fun e => !e.isNotFound) then ⟨d, t3, .returned (diagFromErr err)⟩ else
  let t4 := t3 ++ [Call.vmWatch ns (watchOptions name vmDeleteTimeout)]
  match env.vmWatch t3 ns (watchOptions name vmDeleteTimeout) with
  | .error err => ⟨d, t4, .returned (diagFromErr (some err))⟩
  | .ok events =>
  let deleted := deletedLoop events
  if !deleted then
    ⟨d, t4, .returned (diagFromErr (some
      ⟨"timeout waiting for virtualmachine " ++ d.id ++ " to be deleted", false⟩))⟩
  else ⟨d.setId "", t4, .returned []⟩

/-! ## A scripted cluster for the examples -/

/-- A cluster in which every call succeeds: it creates and returns `vm`, the two watches
deliver the given events, the ID decodes to namespace `default` and the name of `vm`, the
state getter hands back its two arguments and writing the states leaves the record alone. -/
def scriptedEnv (vm : VirtualMachine) (vmEvents : List (Event VirtualMachine))
    (vmiEvents : List (Event VirtualMachineInstance)) :
    Env (VirtualMachine × Option VirtualMachineInstance) where
  idParts := fun _ => .ok ("default", vm.name)
  constructCreator := fun _ _ _ => .ok vm
  constructUpdater := fun _ obj => .ok obj
  stateGetter := fun v vmi => .ok (v, vmi)
  resourceStatesSet := fun d _ => (d, none)
  removedPVCsAnnotationKey := "harvesterhci.io/removedPersistentVolumeClaims"
  vmCreate := fun _ _ v => .ok v
  vmGet := fun _ _ _ => .ok vm
  vmUpdate := fun _ _ v => .ok v
  vmDelete := fun _ _ _ _ => none
  vmWatch := fun _ _ _ => .ok vmEvents
  vmiGet := fun _ _ name => .ok ⟨name, []⟩
  vmiWatch := fun _ _ _ => .ok vmiEvents

/-- The scripted cluster, except that the first fetch of the virtual machine fails. -/
def scriptedEnvGetFails (err : Err) : Env (VirtualMachine × Option VirtualMachineInstance) :=
  { scriptedEnv ⟨"vm1", some [], [], false⟩ [] [] with vmGet := fun _ _ _ => .error err }

/-- The scripted cluster, except that every update fails. -/
def scriptedEnvUpdateFails (vm : VirtualMachine) (err : Err) :
    Env (VirtualMachine × Option VirtualMachineInstance) :=
  { scriptedEnv vm [] [] with vmUpdate := fun _ _ _ => .error err }

/-- Virtual machine `vm1` without volumes, with an empty (non-nil) annotations map. -/
def vm1 : VirtualMachine := ⟨"vm1", some [], [], false⟩

/-- Record of `vm1` with one interface `net0` that waits for a lease. -/
def recordVm1 : ResourceData :=
  { id := "default/vm1", ns := "default", name := "vm1",
    networkInterface := [⟨"net0", some true⟩], disk := [] }

/-- Record of `vm1` with one interface `net0` that does not wait for a lease. -/
def recordVm1NoLease : ResourceData :=
  { id := "default/vm1", ns := "default", name := "vm1",
    networkInterface := [⟨"net0", some false⟩], disk := [] }

/-- Record of `vm1` whose disk list names `disk0` twice: auto-delete off, then on. -/
def recordTwoEntries : ResourceData :=
  { id := "default/vm1", ns := "default", name := "vm1", networkInterface := [],
    disk := [⟨"disk0", false⟩, ⟨"disk0", true⟩] }

/-- Record of `vm1` whose disk list keeps `disk0` (auto-delete off). -/
def recordKeepDisk0 : ResourceData :=
  { id := "default/vm1", ns := "default", name := "vm1", networkInterface := [],
    disk := [⟨"disk0", false⟩] }

/-- Virtual machine `vm1` as the API server returns it when it carries no annotation: the
annotations map is nil. It has one claim-backed volume. -/
def vm1NoAnnotations : VirtualMachine := ⟨"vm1", none, [⟨"disk0", some "pvc0"⟩], true⟩

/-- Virtual machine `vm1` with one annotation and two claim-backed volumes. -/
def vm1TwoVolumes : VirtualMachine :=
  ⟨"vm1", some [("owner", "team-a")], [⟨"disk0", some "pvc0"⟩, ⟨"data", some "pvc-data"⟩], true⟩

/-- A readiness event for `vm1`. -/
def readyEvent : Event VirtualMachine := ⟨EventType.Modified, ⟨"vm1", some [], [], true⟩⟩

/-- An instance event of `vm1` reporting interface `net0` with the given address. -/
def leaseEvent (address : String) : Event VirtualMachineInstance :=
  ⟨EventType.Modified, ⟨"vm1", [⟨"net0", address⟩]⟩⟩

/-- The cluster of the create scenario, for an arbitrary importer (`getter` is the state
getter of the importer, `setter` writes the states into the record): the Create call returns
`vm1`, the VM watch delivers one readiness event, and the instance watch and the instance
fetch both report interface `net0` with `address`. -/
def scenarioEnv {SG : Type}
    (getter : VirtualMachine → Option VirtualMachineInstance → Except Err SG)
    (setter : ResourceData → SG → ResourceData × Option Err) (address : String) : Env SG where
  idParts := fun _ => .ok ("default", "vm1")
  constructCreator := fun _ _ _ => .ok vm1
  constructUpdater := fun _ obj => .ok obj
  stateGetter := getter
  resourceStatesSet := setter
  removedPVCsAnnotationKey := "harvesterhci.io/removedPersistentVolumeClaims"
  vmCreate := fun _ _ v => .ok v
  vmGet := fun _ _ _ => .ok vm1
  vmUpdate := fun _ _ v => .ok v
  vmDelete := fun _ _ _ _ => none
  vmWatch := fun _ _ _ => .ok [readyEvent]
  vmiGet := fun _ _ _ => .ok (leaseEvent address).object
  vmiWatch := fun _ _ _ => .ok [leaseEvent address]

end Harvester

namespace Harvester

/-! ## Auxiliary facts about the loops -/

theorem string_length_pos_iff (s : String) : 0 < s.length ↔ s ≠ "" := by
  cases s with
  | mk data =>
    cases data with
    | nil => simp [String.length]
    | cons c cs =>
      simp only [String.length, List.length_cons, Nat.zero_lt_succ, true_iff]
      intro h
      have h2 := congrArg String.data h
      simp at h2

theorem foldl_readyStep (b : Bool) (events : List (Event VirtualMachine)) :
    events.foldl readyStep b = true ↔
      b = true ∨ ∃ e ∈ events,
        (e.type = EventType.Added ∨ e.type = EventType.Modified) ∧ e.object.ready = true := by
  induction events generalizing b with
  | nil => simp
  | cons e rest ih =>
    rw [List.foldl_cons, ih]
    unfold readyStep
    by_cases h1 : e.type = EventType.Added ∨ e.type = EventType.Modified
    · by_cases h2 : e.object.ready = true
      · simp [h1, h2]
      · simp [h1, h2]
    · simp [h1]

theorem readyLoop_iff (events : List (Event VirtualMachine)) :
    readyLoop events = true ↔ ∃ e ∈ events,
      (e.type = EventType.Added ∨ e.type = EventType.Modified) ∧ e.object.ready = true := by
  unfold readyLoop
  rw [foldl_readyStep]
  simp

theorem foldl_deletedStep (b : Bool) (events : List (Event VirtualMachine)) :
    events.foldl (fun deleted event => if event.type = EventType.Deleted then true else deleted)
      b = true ↔ b = true ∨ ∃ e ∈ events, e.type = EventType.Deleted := by
  induction events generalizing b with
  | nil => simp
  | cons e rest ih =>
    rw [List.foldl_cons, ih]
    by_cases h1 : e.type = EventType.Deleted
    · simp [h1]
    · simp [h1]

theorem deletedLoop_iff (events : List (Event VirtualMachine)) :
    deletedLoop events = true ↔ ∃ e ∈ events, e.type = EventType.Deleted := by
  unfold deletedLoop
  rw [foldl_deletedStep]
  simp

theorem lookup_isSome_of_mem {β : Type} (m : GoMap β) (p : String × β) (h : p ∈ m) :
    (m.lookup p.1).isSome = true := by
  unfold GoMap.lookup
  simp only [Option.isSome_map', List.find?_isSome]
  exact ⟨p, h, by simp⟩

theorem mem_leaseNetStep (m : GoMap Bool) (net : VirtualMachineInstanceNetworkInterface)
    (p : String × Bool) :
    p ∈ leaseNetStep m net ↔ p ∈ m ∧ ¬ (net.name = p.1 ∧ net.ip ≠ "") := by
  unfold leaseNetStep
  split
  · next h =>
    have hip : net.ip ≠ "" := (string_length_pos_iff _).1 h.2
    simp only [GoMap.delete, List.mem_filter, bne_iff_ne, ne_eq, hip, not_false_eq_true,
      and_true]
    constructor
    · rintro ⟨h1, h2⟩
      exact ⟨h1, fun h3 => h2 h3.symm⟩
    · rintro ⟨h1, h2⟩
      exact ⟨h1, fun h3 => h2 h3.symm⟩
  · next h =>
    constructor
    · intro hp
      refine ⟨hp, ?_⟩
      rintro ⟨h1, h2⟩
      apply h
      refine ⟨?_, (string_length_pos_iff _).2 h2⟩
      rw [h1]
      exact lookup_isSome_of_mem m p hp
    · exact fun hp => hp.1

theorem mem_foldl_leaseNetStep (nets : List VirtualMachineInstanceNetworkInterface)
    (m : GoMap Bool) (p : String × Bool) :
    p ∈ nets.foldl leaseNetStep m ↔
      p ∈ m ∧ ∀ net ∈ nets, ¬ (net.name = p.1 ∧ net.ip ≠ "") := by
  induction nets generalizing m with
  | nil => simp
  | cons net rest ih =>
    rw [List.foldl_cons, ih, mem_leaseNetStep]
    simp only [List.mem_cons, forall_eq_or_imp]
    tauto

theorem foldl_leaseStep (events : List (Event VirtualMachineInstance)) (m : GoMap Bool)
    (g : Bool) :
    (events.foldl leaseStep (m, g)).2 = true ↔
      g = true ∨ ((∃ e ∈ events, e.type = EventType.Added ∨ e.type = EventType.Modified) ∧
        ∀ p ∈ m, ∃ e ∈ events, reportsLease p.1 e) := by
  induction events generalizing m g with
  | nil => simp
  | cons e rest ih =>
    rw [List.foldl_cons]
    by_cases hty : e.type = EventType.Added ∨ e.type = EventType.Modified
    · have hmem : ∀ p, p ∈ e.object.interfaces.foldl leaseNetStep m ↔
          p ∈ m ∧ ¬ reportsLease p.1 e := by
        intro p
        rw [mem_foldl_leaseNetStep]
        unfold reportsLease
        simp only [hty, true_and, not_exists, not_and]
      by_cases hlen : (e.object.interfaces.foldl leaseNetStep m).len = 0
      · have hnil : e.object.interfaces.foldl leaseNetStep m = [] :=
          List.length_eq_zero.1 hlen
        have hstep : leaseStep (m, g) e = (e.object.interfaces.foldl leaseNetStep m, true) := by
          simp [leaseStep, hty, hlen]
        rw [hstep, ih]
        simp only [true_or, true_iff]
        right
        refine ⟨⟨e, List.mem_cons_self _ _, hty⟩, ?_⟩
        intro p hp
        by_cases hr : reportsLease p.1 e
        · exact ⟨e, List.mem_cons_self _ _, hr⟩
        · have : p ∈ e.object.interfaces.foldl leaseNetStep m := (hmem p).2 ⟨hp, hr⟩
          rw [hnil] at this
          cases this
      · have hstep : leaseStep (m, g) e = (e.object.interfaces.foldl leaseNetStep m, g) := by
          simp [leaseStep, hty, hlen]
        rw [hstep, ih]
        constructor
        · rintro (hg | ⟨_, hall⟩)
          · exact Or.inl hg
          · right
            refine ⟨⟨e, List.mem_cons_self _ _, hty⟩, ?_⟩
            intro p hp
            by_cases hr : reportsLease p.1 e
            · exact ⟨e, List.mem_cons_self _ _, hr⟩
            · obtain ⟨e2, he2, hr2⟩ := hall p ((hmem p).2 ⟨hp, hr⟩)
              exact ⟨e2, List.mem_cons_of_mem _ he2, hr2⟩
        · rintro (hg | ⟨_, hall⟩)
          · exact Or.inl hg
          · right
            have hrest : ∀ p ∈ e.object.interfaces.foldl leaseNetStep m,
                ∃ e2 ∈ rest, reportsLease p.1 e2 := by
              intro p hp
              obtain ⟨hpm, hnr⟩ := (hmem p).1 hp
              obtain ⟨e2, he2, hr2⟩ := hall p hpm
              rcases List.mem_cons.1 he2 with heq | hin
              · exact absurd (heq ▸ hr2) hnr
              · exact ⟨e2, hin, hr2⟩
            refine ⟨?_, hrest⟩
            obtain ⟨p, hp⟩ : ∃ p, p ∈ e.object.interfaces.foldl leaseNetStep m := by
              cases hfold : e.object.interfaces.foldl leaseNetStep m with
              | nil => rw [hfold] at hlen; exact absurd rfl hlen
              | cons q qs => exact ⟨q, List.mem_cons_self _ _⟩
            obtain ⟨e2, he2, hr2⟩ := hrest p hp
            exact ⟨e2, he2, hr2.1⟩
    · have hstep : leaseStep (m, g) e = (m, g) := by
        simp [leaseStep, hty]
      have hnr : ∀ k, ¬ reportsLease k e := fun k hr => hty hr.1
      rw [hstep, ih]
      constructor
      · rintro (hg | ⟨⟨e2, he2, hty2⟩, hall⟩)
        · exact Or.inl hg
        · right
          refine ⟨⟨e2, List.mem_cons_of_mem _ he2, hty2⟩, ?_⟩
          intro p hp
          obtain ⟨e3, he3, hr3⟩ := hall p hp
          exact ⟨e3, List.mem_cons_of_mem _ he3, hr3⟩
      · rintro (hg | ⟨⟨e2, he2, hty2⟩, hall⟩)
        · exact Or.inl hg
        · right
          constructor
          · rcases List.mem_cons.1 he2 with heq | hin
            · exact absurd (heq ▸ hty2) hty
            · exact ⟨e2, hin, hty2⟩
          · intro p hp
            obtain ⟨e3, he3, hr3⟩ := hall p hp
            rcases List.mem_cons.1 he3 with heq | hin
            · exact absurd (heq ▸ hr3) (hnr _)
            · exact ⟨e3, hin, hr3⟩

/-- The lease loop started on a non-empty map ends with `gotip` set exactly when every key of
the map is reported with an address by some Added or Modified event. -/
theorem leaseLoop_iff (m : GoMap Bool) (hm : m ≠ [])
    (events : List (Event VirtualMachineInstance)) :
    leaseLoop m events = true ↔ ∀ k ∈ m.keys, ∃ e ∈ events, reportsLease k e := by
  unfold leaseLoop
  rw [foldl_leaseStep]
  simp only [Bool.false_eq_true, false_or, GoMap.keys, List.mem_map, forall_exists_index,
    and_imp]
  constructor
  · rintro ⟨_, hall⟩ k p hp rfl
    exact hall p hp
  · intro hall
    refine ⟨?_, fun p hp => hall p.1 p hp rfl⟩
    cases m with
    | nil => exact absurd rfl hm
    | cons q qs =>
      obtain ⟨e, he, hr⟩ := hall q.1 q (List.mem_cons_self _ _) rfl
      exact ⟨e, he, hr.1⟩

theorem leaseLoop_perm (m : GoMap Bool) (events events2 : List (Event VirtualMachineInstance))
    (hperm : events2.Perm events) : leaseLoop m events2 = leaseLoop m events := by
  have h : leaseLoop m events2 = true ↔ leaseLoop m events = true := by
    unfold leaseLoop
    rw [foldl_leaseStep, foldl_leaseStep]
    simp only [hperm.mem_iff]
  cases h1 : leaseLoop m events2 <;> cases h2 : leaseLoop m events <;> simp_all

theorem keys_store {β : Type} (m : GoMap β) (k : String) (v : β) :
    (m.store k v).keys = k :: (m.delete k).keys := rfl

theorem mem_keys_delete {β : Type} (m : GoMap β) (k j : String) :
    j ∈ (m.delete k).keys ↔ j ∈ m.keys ∧ j ≠ k := by
  simp only [GoMap.keys, GoMap.delete, List.mem_map, List.mem_filter, bne_iff_ne, ne_eq]
  constructor
  · rintro ⟨p, ⟨hp, hne⟩, rfl⟩
    exact ⟨⟨p, hp, rfl⟩, hne⟩
  · rintro ⟨⟨p, hp, rfl⟩, hne⟩
    exact ⟨p, ⟨hp, hne⟩, rfl⟩

theorem nodup_keys_delete {β : Type} (m : GoMap β) (k : String) (h : m.keys.Nodup) :
    (m.delete k).keys.Nodup :=
  List.Nodup.sublist (List.Sublist.map _ (List.filter_sublist _)) h

theorem nodup_keys_store {β : Type} (m : GoMap β) (k : String) (v : β) (h : m.keys.Nodup) :
    (m.store k v).keys.Nodup := by
  rw [keys_store, List.nodup_cons]
  refine ⟨?_, nodup_keys_delete m k h⟩
  rw [mem_keys_delete]
  exact fun hk => hk.2 rfl

theorem foldl_gather_keys (nis : List NetworkInterfaceData) (m : GoMap Bool) (k : String) :
    k ∈ (nis.foldl
        (fun waitForLeases niData =>
          match niData.waitForLease with
          | some true => GoMap.store waitForLeases niData.name true
          | _ => waitForLeases) m).keys ↔
      k ∈ m.keys ∨ ∃ ni ∈ nis, ni.waitForLease = some true ∧ ni.name = k := by
  induction nis generalizing m with
  | nil => simp
  | cons ni rest ih =>
    rw [List.foldl_cons, ih]
    simp only [List.mem_cons, exists_eq_or_imp]
    rcases hw : ni.waitForLease with _ | b
    · simp
    · cases b
      · simp
      · simp only [keys_store, List.mem_cons, mem_keys_delete, true_and]
        by_cases hk : k = ni.name
        · simp [hk]
        · have hk2 : ¬ ni.name = k := fun h => hk h.symm
          simp [hk, hk2]

theorem foldl_gather_nodup (nis : List NetworkInterfaceData) (m : GoMap Bool)
    (hm : m.keys.Nodup) :
    (nis.foldl
        (fun waitForLeases niData =>
          match niData.waitForLease with
          | some true => GoMap.store waitForLeases niData.name true
          | _ => waitForLeases) m).keys.Nodup := by
  induction nis generalizing m with
  | nil => simpa using hm
  | cons ni rest ih =>
    rw [List.foldl_cons]
    apply ih
    rcases hw : ni.waitForLease with _ | b
    · simpa using hm
    · cases b
      · simpa using hm
      · exact nodup_keys_store m ni.name true hm

/-- The keys gathered are the names of the interfaces with `wait_for_lease` set. -/
theorem mem_keys_gatherWaitForLeases (nis : List NetworkInterfaceData) (k : String) :
    k ∈ (gatherWaitForLeases nis).keys ↔
      ∃ ni ∈ nis, ni.waitForLease = some true ∧ ni.name = k := by
  unfold gatherWaitForLeases
  rw [foldl_gather_keys]
  simp [GoMap.keys]

theorem nodup_keys_gatherWaitForLeases (nis : List NetworkInterfaceData) :
    (gatherWaitForLeases nis).keys.Nodup := by
  unfold gatherWaitForLeases
  exact foldl_gather_nodup nis [] (by simp [GoMap.keys])

theorem gatherWaitForLeases_eq_nil_iff (nis : List NetworkInterfaceData) :
    gatherWaitForLeases nis = [] ↔ ∀ ni ∈ nis, ni.waitForLease ≠ some true := by
  constructor
  · intro h ni hni hw
    have : ni.name ∈ (gatherWaitForLeases nis).keys :=
      (mem_keys_gatherWaitForLeases nis ni.name).2 ⟨ni, hni, hw, rfl⟩
    rw [h] at this
    cases this
  · intro h
    cases hg : gatherWaitForLeases nis with
    | nil => rfl
    | cons q qs =>
      have : q.1 ∈ (gatherWaitForLeases nis).keys := by
        rw [hg]; exact List.mem_cons_self _ _
      obtain ⟨ni, hni, hw, _⟩ := (mem_keys_gatherWaitForLeases nis q.1).1 this
      exact absurd hw (h ni hni)

theorem exists_unobserved (m : GoMap Bool) (events : List (Event VirtualMachineInstance))
    (h : (observedNames m events).length < m.len) :
    ∃ k ∈ m.keys, ¬ ∃ e ∈ events, reportsLease k e := by
  unfold observedNames at h
  have hlen : m.len = m.keys.length := by simp [GoMap.len, GoMap.keys]
  rw [hlen, List.length_filter_lt_length_iff_exists] at h
  obtain ⟨k, hk, hnot⟩ := h
  exact ⟨k, hk, by simpa using hnot⟩

/-! ## Events delivered after a loop has set its flag

Each loop calls `events.Stop()` when it sets its flag and keeps ranging over the channel.
Whatever the channel still delivers after that point, the flag stays set: the value of a loop
on a sequence `seen ++ later` is already decided by `seen` once `seen` sets the flag. -/

theorem readyLoop_append (seen later : List (Event VirtualMachine))
    (h : readyLoop seen = true) : readyLoop (seen ++ later) = true := by
  rw [readyLoop_iff] at h ⊢
  obtain ⟨e, he, hprop⟩ := h
  exact ⟨e, List.mem_append_left _ he, hprop⟩

theorem deletedLoop_append (seen later : List (Event VirtualMachine))
    (h : deletedLoop seen = true) : deletedLoop (seen ++ later) = true := by
  rw [deletedLoop_iff] at h ⊢
  obtain ⟨e, he, hprop⟩ := h
  exact ⟨e, List.mem_append_left _ he, hprop⟩

theorem leaseLoop_append (m : GoMap Bool) (seen later : List (Event VirtualMachineInstance))
    (h : leaseLoop m seen = true) : leaseLoop m (seen ++ later) = true := by
  unfold leaseLoop at h ⊢
  rw [foldl_leaseStep] at h ⊢
  rcases h with h | ⟨⟨e, he, hty⟩, hall⟩
  · exact Or.inl h
  · right
    refine ⟨⟨e, List.mem_append_left _ he, hty⟩, ?_⟩
    intro p hp
    obtain ⟨e2, he2, hr⟩ := hall p hp
    exact ⟨e2, List.mem_append_left _ he2, hr⟩

/-! ## Create: readiness wait and lease wait -/

/-- C2. Readiness wait of `resourceVirtualMachineCreate`, a fold over the events of the VM
watch: it is satisfied exactly when some Added or Modified event carries an object with
`Status.Ready = true`; a sequence in which every event is of type Deleted or has
`Ready = false` never satisfies it; when it is not satisfied the create returns the single
error `Timeout waiting for VM <name> to be created` with the name of the record; and when it
is satisfied the create goes on past the wait: it is the lease step (instance watch, lease
loop, then lease timeout or state import) when some interface waits for a lease, and the
state import otherwise. -/
theorem create_readiness_wait {SG : Type} (env : Env SG) (d : ResourceData)
    (toCreate obj : VirtualMachine) (events : List (Event VirtualMachine))
    (hconstruct : env.constructCreator d d.ns d.name = .ok toCreate)
    (hcreate : env.vmCreate [] d.ns toCreate = .ok obj)
    (hwatch : env.vmWatch [Call.vmCreate d.ns toCreate] d.ns
      (watchOptions d.name vmCreateTimeout) = .ok events) :
    (readyLoop events = true ↔ ∃ e ∈ events,
        (e.type = EventType.Added ∨ e.type = EventType.Modified) ∧ e.object.ready = true) ∧
    ((∀ e ∈ events, e.type = EventType.Deleted ∨ e.object.ready = false) →
        readyLoop events = false) ∧
    (readyLoop events = false →
        resourceVirtualMachineCreate env d =
          ⟨d, [Call.vmCreate d.ns toCreate,
               Call.vmWatch d.ns (watchOptions d.name vmCreateTimeout)],
            .returned [⟨"Timeout waiting for VM " ++ d.name ++ " to be created"⟩]⟩) ∧
    (readyLoop events = true →
        resourceVirtualMachineCreate env d =
          if 0 < GoMap.len (gatherWaitForLeases d.networkInterface) then
            match env.vmiWatch
              [Call.vmCreate d.ns toCreate,
                Call.vmWatch d.ns (watchOptions d.name vmCreateTimeout)]
              d.ns (watchOptions d.name vmLeasesTimeout) with
            | .error err =>
              ⟨d, [Call.vmCreate d.ns toCreate,
                  Call.vmWatch d.ns (watchOptions d.name vmCreateTimeout),
                  Call.vmiWatch d.ns (watchOptions d.name vmLeasesTimeout)],
                .returned [⟨err.msg⟩]⟩
            | .ok leaseEvents =>
              if leaseLoop (gatherWaitForLeases d.networkInterface) leaseEvents = true then
                resourceVirtualMachineImport env d
                  [Call.vmCreate d.ns toCreate,
                    Call.vmWatch d.ns (watchOptions d.name vmCreateTimeout),
                    Call.vmiWatch d.ns (watchOptions d.name vmLeasesTimeout)] obj none
              else
                ⟨d, [Call.vmCreate d.ns toCreate,
                    Call.vmWatch d.ns (watchOptions d.name vmCreateTimeout),
                    Call.vmiWatch d.ns (watchOptions d.name vmLeasesTimeout)],
                  .returned [⟨"Timeout waiting for VM " ++ d.name ++ " to get IP address"⟩]⟩
          else
            resourceVirtualMachineImport env d
              [Call.vmCreate d.ns toCreate,
                Call.vmWatch d.ns (watchOptions d.name vmCreateTimeout)] obj none) ∧
    ((∃ e ∈ events,
        (e.type = EventType.Added ∨ e.type = EventType.Modified) ∧ e.object.ready = true) →
      (∀ ni ∈ d.networkInterface, ni.waitForLease ≠ some true) →
        resourceVirtualMachineCreate env d =
          resourceVirtualMachineImport env d
            [Call.vmCreate d.ns toCreate,
              Call.vmWatch d.ns (watchOptions d.name vmCreateTimeout)] obj none) := by
  have hpass : readyLoop events = true →
      resourceVirtualMachineCreate env d =
        if 0 < GoMap.len (gatherWaitForLeases d.networkInterface) then
          match env.vmiWatch
            [Call.vmCreate d.ns toCreate,
              Call.vmWatch d.ns (watchOptions d.name vmCreateTimeout)]
            d.ns (watchOptions d.name vmLeasesTimeout) with
          | .error err =>
            ⟨d, [Call.vmCreate d.ns toCreate,
                Call.vmWatch d.ns (watchOptions d.name vmCreateTimeout),
                Call.vmiWatch d.ns (watchOptions d.name vmLeasesTimeout)],
              .returned [⟨err.msg⟩]⟩
          | .ok leaseEvents =>
            if leaseLoop (gatherWaitForLeases d.networkInterface) leaseEvents = true then
              resourceVirtualMachineImport env d
                [Call.vmCreate d.ns toCreate,
                  Call.vmWatch d.ns (watchOptions d.name vmCreateTimeout),
                  Call.vmiWatch d.ns (watchOptions d.name vmLeasesTimeout)] obj none
            else
              ⟨d, [Call.vmCreate d.ns toCreate,
                  Call.vmWatch d.ns (watchOptions d.name vmCreateTimeout),
                  Call.vmiWatch d.ns (watchOptions d.name vmLeasesTimeout)],
                .returned [⟨"Timeout waiting for VM " ++ d.name ++ " to get IP address"⟩]⟩
        else
          resourceVirtualMachineImport env d
            [Call.vmCreate d.ns toCreate,
              Call.vmWatch d.ns (watchOptions d.name vmCreateTimeout)] obj none := by
    intro hr
    unfold resourceVirtualMachineCreate
    simp only [hconstruct, hcreate, hwatch, hr, List.singleton_append, List.cons_append,
      List.nil_append, Bool.not_true, Bool.false_eq_true, if_false, gt_iff_lt]
    split
    · split
      · rfl
      · next leaseEvents _ =>
        cases leaseLoop (gatherWaitForLeases d.networkInterface) leaseEvents <;>
          simp [diagErrorf]
    · rfl
  refine ⟨readyLoop_iff events, ?_, ?_, hpass, ?_⟩
  · intro hall
    cases hr : readyLoop events with
    | false => rfl
    | true =>
      obtain ⟨e, he, hty, hready⟩ := (readyLoop_iff events).1 hr
      rcases hall e he with hdel | hnot
      · rw [hdel] at hty
        rcases hty with h | h <;> cases h
      · rw [hnot] at hready
        cases hready
  · intro hr
    simp [resourceVirtualMachineCreate, hconstruct, hcreate, hwatch, hr, diagErrorf]
  · intro hex hnone
    have hS := (gatherWaitForLeases_eq_nil_iff d.networkInterface).2 hnone
    rw [hpass ((readyLoop_iff events).2 hex), hS]
    simp [GoMap.len]

/-- Instance of the readiness wait, on both sides. A Deleted event with a ready object and an
Added event that is not ready leave the wait unsatisfied, and the create times out. One
Modified event with a ready object satisfies it, and the create of a record without a
wait-for-lease interface goes on to the state import and succeeds. -/
theorem create_readiness_wait_witness :
    (readyLoop [⟨EventType.Deleted, ⟨"vm1", some [], [], true⟩⟩,
        ⟨EventType.Added, ⟨"vm1", some [], [], false⟩⟩] = false ∧
      resourceVirtualMachineCreate
          (scriptedEnv vm1 [⟨EventType.Deleted, ⟨"vm1", some [], [], true⟩⟩,
            ⟨EventType.Added, ⟨"vm1", some [], [], false⟩⟩] []) recordVm1 =
        ⟨recordVm1, [Call.vmCreate "default" vm1,
            Call.vmWatch "default" (watchOptions "vm1" vmCreateTimeout)],
          .returned [⟨"Timeout waiting for VM " ++ "vm1" ++ " to be created"⟩]⟩) ∧
    (readyLoop [readyEvent] = true ∧
      resourceVirtualMachineCreate (scriptedEnv vm1 [readyEvent] []) recordVm1NoLease =
        ⟨recordVm1NoLease, [Call.vmCreate "default" vm1,
            Call.vmWatch "default" (watchOptions "vm1" vmCreateTimeout)],
          .returned []⟩) :=
  have h := create_readiness_wait
    (scriptedEnv vm1 [⟨EventType.Deleted, ⟨"vm1", some [], [], true⟩⟩,
      ⟨EventType.Added, ⟨"vm1", some [], [], false⟩⟩] []) recordVm1 vm1 vm1
    [⟨EventType.Deleted, ⟨"vm1", some [], [], true⟩⟩,
      ⟨EventType.Added, ⟨"vm1", some [], [], false⟩⟩] rfl rfl rfl
  have h2 := create_readiness_wait (scriptedEnv vm1 [readyEvent] []) recordVm1NoLease vm1 vm1
    [readyEvent] rfl rfl rfl
  ⟨⟨h.2.1 (by decide), h.2.2.1 (h.2.1 (by decide))⟩,
    ⟨h2.1.2 ⟨readyEvent, by decide, by decide⟩,
      (h2.2.2.2.2 ⟨readyEvent, by decide, by decide⟩ (by decide)).trans rfl⟩⟩

/-- C1. Lease wait of `resourceVirtualMachineCreate`, a fold over the events of the instance
watch, for a non-empty set of wait-for-lease names (the keys gathered from the record, which
are pairwise distinct): the wait is satisfied exactly when every name of the set is reported
with a non-empty IP by some Added or Modified event; the value of the wait, and with it the
whole run, is the same for every permutation of the events; and when fewer names of the set
than its size are so reported, the create returns the single error
`Timeout waiting for VM <name> to get IP address`. -/
theorem create_lease_wait {SG : Type} (env : Env SG) (d : ResourceData)
    (toCreate obj : VirtualMachine) (vmEvents : List (Event VirtualMachine))
    (events : List (Event VirtualMachineInstance))
    (hS : gatherWaitForLeases d.networkInterface ≠ [])
    (hconstruct : env.constructCreator d d.ns d.name = .ok toCreate)
    (hcreate : env.vmCreate [] d.ns toCreate = .ok obj)
    (hwatch : env.vmWatch [Call.vmCreate d.ns toCreate] d.ns
      (watchOptions d.name vmCreateTimeout) = .ok vmEvents)
    (hready : readyLoop vmEvents = true)
    (hlease : env.vmiWatch
      [Call.vmCreate d.ns toCreate, Call.vmWatch d.ns (watchOptions d.name vmCreateTimeout)]
      d.ns (watchOptions d.name vmLeasesTimeout) = .ok events) :
    (gatherWaitForLeases d.networkInterface).keys.Nodup ∧
    (leaseLoop (gatherWaitForLeases d.networkInterface) events = true ↔
      ∀ k ∈ (gatherWaitForLeases d.networkInterface).keys,
        ∃ e ∈ events, reportsLease k e) ∧
    (leaseLoop (gatherWaitForLeases d.networkInterface) events = true →
      resourceVirtualMachineCreate env d =
        resourceVirtualMachineImport env d
          [Call.vmCreate d.ns toCreate, Call.vmWatch d.ns (watchOptions d.name vmCreateTimeout),
            Call.vmiWatch d.ns (watchOptions d.name vmLeasesTimeout)] obj none) ∧
    (∀ events2 : List (Event VirtualMachineInstance), events2.Perm events →
      leaseLoop (gatherWaitForLeases d.networkInterface) events2 =
          leaseLoop (gatherWaitForLeases d.networkInterface) events ∧
        resourceVirtualMachineCreate { env with vmiWatch := fun _ _ _ => .ok events2 } d =
          resourceVirtualMachineCreate env d) ∧
    ((observedNames (gatherWaitForLeases d.networkInterface) events).length <
        (gatherWaitForLeases d.networkInterface).len →
      resourceVirtualMachineCreate env d =
        ⟨d, [Call.vmCreate d.ns toCreate,
             Call.vmWatch d.ns (watchOptions d.name vmCreateTimeout),
             Call.vmiWatch d.ns (watchOptions d.name vmLeasesTimeout)],
          .returned [⟨"Timeout waiting for VM " ++ d.name ++ " to get IP address"⟩]⟩) := by
  have hlen : 0 < (gatherWaitForLeases d.networkInterface).len := by
    unfold GoMap.len
    exact List.length_pos.2 hS
  refine ⟨nodup_keys_gatherWaitForLeases _, leaseLoop_iff _ hS events, ?_, ?_, ?_⟩
  · intro hsat
    simp [resourceVirtualMachineCreate, hconstruct, hcreate, hwatch, hready, hlen, hlease,
      hsat]
  · intro events2 hperm
    have hp := leaseLoop_perm (gatherWaitForLeases d.networkInterface) events events2 hperm
    refine ⟨hp, ?_⟩
    simp [resourceVirtualMachineCreate, hconstruct, hcreate, hwatch, hready, hlen, hlease,
      hp, resourceVirtualMachineImport]
  · intro hfew
    obtain ⟨k, hk, hnot⟩ := exists_unobserved _ _ hfew
    have hloop : leaseLoop (gatherWaitForLeases d.networkInterface) events = false := by
      cases hl : leaseLoop (gatherWaitForLeases d.networkInterface) events with
      | false => rfl
      | true => exact absurd ((leaseLoop_iff _ hS events).1 hl k hk) hnot
    simp [resourceVirtualMachineCreate, hconstruct, hcreate, hwatch, hready, hlen, hlease,
      hloop, diagErrorf]

/-- Instance of the lease wait: `net0` is reported with an empty address only, so none of
the one awaited name is observed and the create times out on the lease. -/
theorem create_lease_wait_witness :
    (observedNames (gatherWaitForLeases recordVm1.networkInterface) [leaseEvent ""]).length <
        (gatherWaitForLeases recordVm1.networkInterface).len ∧
    resourceVirtualMachineCreate (scriptedEnv vm1 [readyEvent] [leaseEvent ""]) recordVm1 =
      ⟨recordVm1, [Call.vmCreate "default" vm1,
          Call.vmWatch "default" (watchOptions "vm1" vmCreateTimeout),
          Call.vmiWatch "default" (watchOptions "vm1" vmLeasesTimeout)],
        .returned [⟨"Timeout waiting for VM " ++ "vm1" ++ " to get IP address"⟩]⟩ :=
  ⟨by decide,
    (create_lease_wait (scriptedEnv vm1 [readyEvent] [leaseEvent ""]) recordVm1 vm1 vm1
      [readyEvent] [leaseEvent ""] (by decide) rfl rfl rfl (by decide) rfl).2.2.2.2
      (by decide)⟩

/-! ## Not-found on the first fetch -/

/-- C6. For read, update and delete with an ID that decodes to `(ns, name)`: when the first
fetch of the virtual machine returns a not-found error, the handler returns no diagnostics,
sets the ID of the record to the empty string, and its only client call is that fetch. -/
theorem not_found_clears_record {SG : Type} (env : Env SG) (d : ResourceData)
    (ns name : String) (err : Err)
    (hid : env.idParts d.id = .ok (ns, name))
    (hget : env.vmGet [] ns name = .error err)
    (hnf : err.isNotFound = true) :
    resourceVirtualMachineRead env d = ⟨d.setId "", [Call.vmGet ns name], .returned []⟩ ∧
    resourceVirtualMachineUpdate env d = ⟨d.setId "", [Call.vmGet ns name], .returned []⟩ ∧
    resourceVirtualMachineDelete env d = ⟨d.setId "", [Call.vmGet ns name], .returned []⟩ ∧
    (d.setId "").id = "" := by
  refine ⟨?_, ?_, ?_, rfl⟩
  · simp [resourceVirtualMachineRead, resourceVirtualMachineReadFrom, hid, hget, hnf]
  · simp [resourceVirtualMachineUpdate, hid, hget, hnf]
  · simp [resourceVirtualMachineDelete, hid, hget, hnf]

/-- Instance of the not-found path on a cluster whose fetch fails with not-found. -/
theorem not_found_clears_record_witness :
    resourceVirtualMachineRead (scriptedEnvGetFails ⟨"not found", true⟩) recordVm1 =
        ⟨recordVm1.setId "", [Call.vmGet "default" "vm1"], .returned []⟩ ∧
    resourceVirtualMachineUpdate (scriptedEnvGetFails ⟨"not found", true⟩) recordVm1 =
        ⟨recordVm1.setId "", [Call.vmGet "default" "vm1"], .returned []⟩ ∧
    resourceVirtualMachineDelete (scriptedEnvGetFails ⟨"not found", true⟩) recordVm1 =
        ⟨recordVm1.setId "", [Call.vmGet "default" "vm1"], .returned []⟩ ∧
    (recordVm1.setId "").id = "" :=
  not_found_clears_record (scriptedEnvGetFails ⟨"not found", true⟩) recordVm1 "default" "vm1"
    ⟨"not found", true⟩ rfl rfl rfl

/-! ## Delete: waiting for the deletion event -/

/-- C7. Deletion wait of `resourceVirtualMachineDelete`, a fold over the events of the VM
watch opened after the delete call (the delete call returned no error or a not-found error):
the handler returns no diagnostics and sets the ID of the record to the empty string exactly
when some event is of type Deleted; for every sequence without a Deleted event it returns
the single error `timeout waiting for virtualmachine <id> to be deleted` and leaves the
record, its ID included, unchanged. -/
theorem delete_deletion_wait {SG : Type} (env : Env SG) (d : ResourceData)
    (ns name : String) (vm updated : VirtualMachine) (annotations : GoMap String)
    (events : List (Event VirtualMachine))
    (hid : env.idParts d.id = .ok (ns, name))
    (hget : env.vmGet [] ns name = .ok vm)
    (hann : vm.annotations = some annotations)
    (hupdate : env.vmUpdate [Call.vmGet ns name] ns
      (annotatedCopy env.removedPVCsAnnotationKey d vm annotations) = .ok updated)
    (hdelete : ∀ err, env.vmDelete
      [Call.vmGet ns name,
        Call.vmUpdate ns (annotatedCopy env.removedPVCsAnnotationKey d vm annotations)]
      ns name ⟨some DeletionPropagation.Foreground⟩ = some err → err.isNotFound = true)
    (hwatch : env.vmWatch
      [Call.vmGet ns name,
        Call.vmUpdate ns (annotatedCopy env.removedPVCsAnnotationKey d vm annotations),
        Call.vmDelete ns name ⟨some DeletionPropagation.Foreground⟩]
      ns (watchOptions name vmDeleteTimeout) = .ok events) :
    (((resourceVirtualMachineDelete env d).outcome = .returned [] ∧
        (resourceVirtualMachineDelete env d).d.id = "") ↔
      ∃ e ∈ events, e.type = EventType.Deleted) ∧
    ((∀ e ∈ events, e.type ≠ EventType.Deleted) →
      (resourceVirtualMachineDelete env d).outcome =
          .returned [⟨"timeout waiting for virtualmachine " ++ d.id ++ " to be deleted"⟩] ∧
        (resourceVirtualMachineDelete env d).d = d) := by
  have hany : Option.any (fun e => !e.isNotFound)
      (env.vmDelete
        [Call.vmGet ns name,
          Call.vmUpdate ns (annotatedCopy env.removedPVCsAnnotationKey d vm annotations)]
        ns name ⟨some DeletionPropagation.Foreground⟩) = false := by
    cases hd : env.vmDelete
        [Call.vmGet ns name,
          Call.vmUpdate ns (annotatedCopy env.removedPVCsAnnotationKey d vm annotations)]
        ns name ⟨some DeletionPropagation.Foreground⟩ with
    | none => rfl
    | some err => simp [Option.any, hdelete err hd]
  have hrun : resourceVirtualMachineDelete env d =
      if deletedLoop events = true then
        ⟨d.setId "",
          [Call.vmGet ns name,
            Call.vmUpdate ns (annotatedCopy env.removedPVCsAnnotationKey d vm annotations),
            Call.vmDelete ns name ⟨some DeletionPropagation.Foreground⟩,
            Call.vmWatch ns (watchOptions name vmDeleteTimeout)], .returned []⟩
      else
        ⟨d,
          [Call.vmGet ns name,
            Call.vmUpdate ns (annotatedCopy env.removedPVCsAnnotationKey d vm annotations),
            Call.vmDelete ns name ⟨some DeletionPropagation.Foreground⟩,
            Call.vmWatch ns (watchOptions name vmDeleteTimeout)],
          .returned [⟨"timeout waiting for virtualmachine " ++ d.id ++ " to be deleted"⟩]⟩ := by
    unfold annotatedCopy removedVolumeRecord at hupdate hany hwatch
    unfold resourceVirtualMachineDelete
    simp only [hid, hget, VirtualMachine.deepCopy, hann, List.singleton_append,
      List.cons_append, List.nil_append, hupdate, hany, hwatch]
    unfold annotatedCopy removedVolumeRecord
    cases deletedLoop events <;> simp [diagFromErr]
  rw [hrun]
  constructor
  · rw [← deletedLoop_iff]
    cases deletedLoop events <;> simp [ResourceData.setId]
  · intro hno
    have hloop : deletedLoop events = false := by
      cases hl : deletedLoop events with
      | false => rfl
      | true =>
        obtain ⟨e, he, hty⟩ := (deletedLoop_iff events).1 hl
        exact absurd hty (hno e he)
    simp [hloop]

/-- Instance of the deletion wait: the watch delivers a Modified event only. -/
theorem delete_deletion_wait_witness :
    (resourceVirtualMachineDelete (scriptedEnv vm1 [readyEvent] []) recordVm1).outcome =
        .returned [⟨"timeout waiting for virtualmachine " ++ recordVm1.id ++ " to be deleted"⟩] ∧
    (resourceVirtualMachineDelete (scriptedEnv vm1 [readyEvent] []) recordVm1).d = recordVm1 :=
  (delete_deletion_wait (scriptedEnv vm1 [readyEvent] []) recordVm1 "default" "vm1" vm1 _ []
    [readyEvent] rfl rfl rfl rfl (by intro err h; cases h) rfl).2 (by decide)

/-! ## Delete: the Removed-Volume Record -/

theorem lookup_store {β : Type} (m : GoMap β) (k j : String) (v : β) :
    GoMap.lookup (GoMap.store m k v) j = if k = j then some v else GoMap.lookup m j := by
  unfold GoMap.store GoMap.lookup
  by_cases h : k = j
  · simp [h]
  · have hfilter : ∀ l : List (String × β),
        List.find? (fun p => p.1 == j) (l.filter (fun p => p.1 != k)) =
          List.find? (fun p => p.1 == j) l := by
      intro l
      induction l with
      | nil => rfl
      | cons q qs ih =>
        by_cases hq : q.1 = k
        · have hqj : ¬ q.1 = j := fun h2 => h (hq.symm.trans h2)
          have hfil : List.filter (fun p : String × β => p.1 != k) (q :: qs) =
              List.filter (fun p : String × β => p.1 != k) qs :=
            List.filter_cons_of_neg (by simp [hq])
          have hfind : List.find? (fun p : String × β => p.1 == j) (q :: qs) =
              List.find? (fun p : String × β => p.1 == j) qs :=
            List.find?_cons_of_neg _ (by simp [hqj])
          rw [hfil, hfind]
          exact ih
        · have hfil : List.filter (fun p : String × β => p.1 != k) (q :: qs) =
              q :: List.filter (fun p : String × β => p.1 != k) qs :=
            List.filter_cons_of_pos (by simp [hq])
          rw [hfil]
          by_cases hqj : q.1 = j
          · simp [List.find?_cons, hqj]
          · simp [List.find?_cons, hqj, ih]
    have hmiss : ((k, v).1 == j) = false := by simp [h]
    rw [List.find?_cons_of_neg _ (by simp [hmiss]), hfilter, if_neg h]

theorem gatherDeleteConfigs_eq (d : ResourceData) :
    gatherDeleteConfigs d =
      d.disk.foldl (fun deleteConfigs r => GoMap.store deleteConfigs r.name r.autoDelete) [] := by
  unfold gatherDeleteConfigs ResourceData.getOkDisk
  cases hd : d.disk with
  | nil => rfl
  | cons r rs => rfl

theorem foldl_store_snoc (disks : List DiskData) (r : DiskData) (m : GoMap Bool) :
    (disks ++ [r]).foldl (fun deleteConfigs r => GoMap.store deleteConfigs r.name r.autoDelete) m =
      GoMap.store
        (disks.foldl (fun deleteConfigs r => GoMap.store deleteConfigs r.name r.autoDelete) m)
        r.name r.autoDelete := by
  simp [List.foldl_append]

/-- No disk entry named `k`: the configuration map has no entry for `k`. -/
theorem lookup_deleteConfigs_none (disks : List DiskData) (k : String)
    (h : ∀ r ∈ disks, r.name ≠ k) :
    GoMap.lookup
      (disks.foldl (fun deleteConfigs r => GoMap.store deleteConfigs r.name r.autoDelete)
        ([] : GoMap Bool)) k = none := by
  induction disks using List.reverseRecOn with
  | nil => rfl
  | append_singleton rest r ih =>
    rw [foldl_store_snoc, lookup_store]
    have hr : r.name ≠ k := h r (by simp)
    rw [if_neg hr]
    exact ih (fun r2 hr2 => h r2 (by simp [hr2]))

/-- The last disk entry named `k` decides: when an entry named `k` has auto-delete off and
every later entry named `k` has it off too, the configuration map holds `false` for `k`. -/
theorem lookup_deleteConfigs_false (front back : List DiskData) (r : DiskData) (k : String)
    (hname : r.name = k) (hoff : r.autoDelete = false)
    (hback : ∀ r2 ∈ back, r2.name = k → r2.autoDelete = false) :
    GoMap.lookup
      ((front ++ r :: back).foldl
        (fun deleteConfigs r => GoMap.store deleteConfigs r.name r.autoDelete)
        ([] : GoMap Bool)) k = some false := by
  induction back using List.reverseRecOn with
  | nil =>
    rw [foldl_store_snoc, lookup_store, if_pos hname, hoff]
  | append_singleton rest r2 ih =>
    have happ : front ++ r :: (rest ++ [r2]) = (front ++ r :: rest) ++ [r2] := by simp
    rw [happ, foldl_store_snoc, lookup_store]
    by_cases h2 : r2.name = k
    · rw [if_pos h2, hback r2 (by simp) h2]
    · rw [if_neg h2]
      exact ih (fun r3 hr3 h3 => hback r3 (by simp [hr3]) h3)

theorem removedPVCsStep_append (deleteConfigs : GoMap Bool) (acc : List String) (v : Volume) :
    removedPVCsStep deleteConfigs acc v = acc ++ removedPVCsStep deleteConfigs [] v := by
  unfold removedPVCsStep
  cases v.persistentVolumeClaim with
  | none => simp
  | some claimName =>
    cases GoMap.lookup deleteConfigs v.name with
    | none => simp
    | some autoDelete => cases autoDelete <;> simp

theorem foldl_removedPVCsStep (deleteConfigs : GoMap Bool) (volumes : List Volume)
    (acc : List String) :
    volumes.foldl (removedPVCsStep deleteConfigs) acc =
      acc ++ volumes.foldl (removedPVCsStep deleteConfigs) [] := by
  induction volumes generalizing acc with
  | nil => simp
  | cons v rest ih =>
    rw [List.foldl_cons, List.foldl_cons, ih, ih (removedPVCsStep deleteConfigs [] v),
      removedPVCsStep_append, List.append_assoc]

/-- The record of a volume list is the record of the volumes before `v`, then what `v`
contributes, then the record of the volumes after `v`. -/
theorem gatherRemovedPVCs_split (deleteConfigs : GoMap Bool) (front back : List Volume)
    (v : Volume) :
    gatherRemovedPVCs deleteConfigs (front ++ v :: back) =
      gatherRemovedPVCs deleteConfigs front ++ removedPVCsStep deleteConfigs [] v ++
        gatherRemovedPVCs deleteConfigs back := by
  unfold gatherRemovedPVCs
  rw [List.foldl_append, List.foldl_cons, foldl_removedPVCsStep, removedPVCsStep_append]

/-- C3, as the claim states it, fails: the disk list configures `disk0` with auto-delete off
and, in a later entry, with auto-delete on; the later entry overwrites the earlier one in the
configuration map, and the attached claim-backed volume `disk0` contributes its claim. -/
theorem removed_volume_record_counterexample :
    (∃ r ∈ recordTwoEntries.disk, r.name = "disk0" ∧ r.autoDelete = false) ∧
    gatherRemovedPVCs (gatherDeleteConfigs recordTwoEntries) [⟨"disk0", some "pvc0"⟩] =
      ["pvc0"] ∧
    gatherRemovedPVCs (gatherDeleteConfigs recordTwoEntries) [] = [] := by
  decide

/-- C3, amended. Removed-Volume Record of `resourceVirtualMachineDelete`, for every disk list
and every list of attached volumes `front ++ v :: back`: (1) when some disk entry named like
`v` has auto-delete off and no later entry of that name has it on, `v` contributes nothing:
the record is the record of `front` followed by the record of `back`; (2) when `v` is
claim-backed and no disk entry is named like `v`, `v` contributes exactly its claim name. -/
theorem removed_volume_record (d : ResourceData) (front back : List Volume) (v : Volume) :
    ((∃ dfront r dback, d.disk = dfront ++ r :: dback ∧ r.name = v.name ∧
          r.autoDelete = false ∧ ∀ r2 ∈ dback, r2.name = v.name → r2.autoDelete = false) →
      gatherRemovedPVCs (gatherDeleteConfigs d) (front ++ v :: back) =
        gatherRemovedPVCs (gatherDeleteConfigs d) front ++
          gatherRemovedPVCs (gatherDeleteConfigs d) back) ∧
    (∀ claimName, v.persistentVolumeClaim = some claimName →
      (∀ r ∈ d.disk, r.name ≠ v.name) →
      gatherRemovedPVCs (gatherDeleteConfigs d) (front ++ v :: back) =
        gatherRemovedPVCs (gatherDeleteConfigs d) front ++ [claimName] ++
          gatherRemovedPVCs (gatherDeleteConfigs d) back) := by
  constructor
  · rintro ⟨dfront, r, dback, hdisk, hname, hoff, hback⟩
    have hlook : GoMap.lookup (gatherDeleteConfigs d) v.name = some false := by
      rw [gatherDeleteConfigs_eq, hdisk]
      exact lookup_deleteConfigs_false dfront dback r v.name hname hoff hback
    have hstep : removedPVCsStep (gatherDeleteConfigs d) [] v = [] := by
      unfold removedPVCsStep
      cases v.persistentVolumeClaim with
      | none => rfl
      | some claimName => simp [hlook]
    rw [gatherRemovedPVCs_split, hstep, List.append_nil]
  · intro claimName hclaim hnone
    have hlook : GoMap.lookup (gatherDeleteConfigs d) v.name = none := by
      rw [gatherDeleteConfigs_eq]
      exact lookup_deleteConfigs_none d.disk v.name hnone
    have hstep : removedPVCsStep (gatherDeleteConfigs d) [] v = [claimName] := by
      unfold removedPVCsStep
      simp [hclaim, hlook]
    rw [gatherRemovedPVCs_split, hstep]

/-- Instance of the amended record: `disk0` is kept by its only entry and contributes
nothing; `root` has no entry and contributes its claim. -/
theorem removed_volume_record_witness :
    gatherRemovedPVCs (gatherDeleteConfigs recordKeepDisk0)
        ([⟨"root", some "pvc-root"⟩] ++ ⟨"disk0", some "pvc0"⟩ :: [⟨"data", some "pvc-data"⟩]) =
      gatherRemovedPVCs (gatherDeleteConfigs recordKeepDisk0) [⟨"root", some "pvc-root"⟩] ++
        gatherRemovedPVCs (gatherDeleteConfigs recordKeepDisk0) [⟨"data", some "pvc-data"⟩] ∧
    gatherRemovedPVCs (gatherDeleteConfigs recordKeepDisk0)
        ([] ++ ⟨"root", some "pvc-root"⟩ :: [⟨"disk0", some "pvc0"⟩]) =
      gatherRemovedPVCs (gatherDeleteConfigs recordKeepDisk0) [] ++ ["pvc-root"] ++
        gatherRemovedPVCs (gatherDeleteConfigs recordKeepDisk0) [⟨"disk0", some "pvc0"⟩] :=
  ⟨(removed_volume_record recordKeepDisk0 [⟨"root", some "pvc-root"⟩]
      [⟨"data", some "pvc-data"⟩] ⟨"disk0", some "pvc0"⟩).1
      ⟨[], ⟨"disk0", false⟩, [], rfl, rfl, rfl, by simp⟩,
    (removed_volume_record recordKeepDisk0 [] [⟨"disk0", some "pvc0"⟩]
      ⟨"root", some "pvc-root"⟩).2 "pvc-root" rfl (by decide)⟩

/-! ## Delete: order of the client calls -/

theorem lookup_store_self {β : Type} (m : GoMap β) (k : String) (v : β) :
    GoMap.lookup (GoMap.store m k v) k = some v := by
  rw [lookup_store, if_pos rfl]

/-- The delete run once the fetch succeeded with non-nil annotations and the update of the
annotated copy succeeded. -/
theorem delete_run_of_update_ok {SG : Type} (env : Env SG) (d : ResourceData)
    (ns name : String) (vm updated : VirtualMachine) (annotations : GoMap String)
    (hid : env.idParts d.id = .ok (ns, name))
    (hget : env.vmGet [] ns name = .ok vm)
    (hann : vm.annotations = some annotations)
    (hupdate : env.vmUpdate [Call.vmGet ns name] ns
      (annotatedCopy env.removedPVCsAnnotationKey d vm annotations) = .ok updated) :
    resourceVirtualMachineDelete env d =
      if Option.any (fun e => !e.isNotFound)
          (env.vmDelete
            [Call.vmGet ns name,
              Call.vmUpdate ns (annotatedCopy env.removedPVCsAnnotationKey d vm annotations)]
            ns name ⟨some DeletionPropagation.Foreground⟩) = true then
        ⟨d, [Call.vmGet ns name,
            Call.vmUpdate ns (annotatedCopy env.removedPVCsAnnotationKey d vm annotations),
            Call.vmDelete ns name ⟨some DeletionPropagation.Foreground⟩],
          .returned (diagFromErr (env.vmDelete
            [Call.vmGet ns name,
              Call.vmUpdate ns (annotatedCopy env.removedPVCsAnnotationKey d vm annotations)]
            ns name ⟨some DeletionPropagation.Foreground⟩))⟩
      else
        match env.vmWatch
          [Call.vmGet ns name,
            Call.vmUpdate ns (annotatedCopy env.removedPVCsAnnotationKey d vm annotations),
            Call.vmDelete ns name ⟨some DeletionPropagation.Foreground⟩]
          ns (watchOptions name vmDeleteTimeout) with
        | .error err =>
          ⟨d, [Call.vmGet ns name,
              Call.vmUpdate ns (annotatedCopy env.removedPVCsAnnotationKey d vm annotations),
              Call.vmDelete ns name ⟨some DeletionPropagation.Foreground⟩,
              Call.vmWatch ns (watchOptions name vmDeleteTimeout)],
            .returned (diagFromErr (some err))⟩
        | .ok events =>
          if deletedLoop events = true then
            ⟨d.setId "", [Call.vmGet ns name,
                Call.vmUpdate ns (annotatedCopy env.removedPVCsAnnotationKey d vm annotations),
                Call.vmDelete ns name ⟨some DeletionPropagation.Foreground⟩,
                Call.vmWatch ns (watchOptions name vmDeleteTimeout)], .returned []⟩
          else
            ⟨d, [Call.vmGet ns name,
                Call.vmUpdate ns (annotatedCopy env.removedPVCsAnnotationKey d vm annotations),
                Call.vmDelete ns name ⟨some DeletionPropagation.Foreground⟩,
                Call.vmWatch ns (watchOptions name vmDeleteTimeout)],
              .returned [⟨"timeout waiting for virtualmachine " ++ d.id ++
                " to be deleted"⟩]⟩ := by
  unfold annotatedCopy removedVolumeRecord at hupdate ⊢
  unfold resourceVirtualMachineDelete
  simp only [hid, hget, VirtualMachine.deepCopy, hann, List.singleton_append,
    List.cons_append, List.nil_append, hupdate]
  split
  · rfl
  · split
    · rfl
    · next events _ =>
      cases deletedLoop events <;> simp [diagFromErr]

theorem delete_trace_of_update_ok {SG : Type} (env : Env SG) (d : ResourceData)
    (ns name : String) (vm updated : VirtualMachine) (annotations : GoMap String)
    (hid : env.idParts d.id = .ok (ns, name))
    (hget : env.vmGet [] ns name = .ok vm)
    (hann : vm.annotations = some annotations)
    (hupdate : env.vmUpdate [Call.vmGet ns name] ns
      (annotatedCopy env.removedPVCsAnnotationKey d vm annotations) = .ok updated) :
    ∃ post, (resourceVirtualMachineDelete env d).trace =
        [Call.vmGet ns name,
          Call.vmUpdate ns (annotatedCopy env.removedPVCsAnnotationKey d vm annotations),
          Call.vmDelete ns name ⟨some DeletionPropagation.Foreground⟩] ++ post ∧
      (post = [] ∨ post = [Call.vmWatch ns (watchOptions name vmDeleteTimeout)]) := by
  rw [delete_run_of_update_ok env d ns name vm updated annotations hid hget hann hupdate]
  split
  · exact ⟨[], rfl, Or.inl rfl⟩
  · split
    · exact ⟨_, rfl, Or.inr rfl⟩
    · split
      · exact ⟨_, rfl, Or.inr rfl⟩
      · exact ⟨_, rfl, Or.inr rfl⟩

/-- The delete run when the update of the annotated copy failed. -/
theorem delete_run_of_update_error {SG : Type} (env : Env SG) (d : ResourceData)
    (ns name : String) (vm : VirtualMachine) (annotations : GoMap String) (err : Err)
    (hid : env.idParts d.id = .ok (ns, name))
    (hget : env.vmGet [] ns name = .ok vm)
    (hann : vm.annotations = some annotations)
    (hupdate : env.vmUpdate [Call.vmGet ns name] ns
      (annotatedCopy env.removedPVCsAnnotationKey d vm annotations) = .error err) :
    resourceVirtualMachineDelete env d =
      ⟨d, [Call.vmGet ns name,
          Call.vmUpdate ns (annotatedCopy env.removedPVCsAnnotationKey d vm annotations)],
        .returned [⟨err.msg⟩]⟩ := by
  unfold annotatedCopy removedVolumeRecord at hupdate ⊢
  unfold resourceVirtualMachineDelete
  simp only [hid, hget, VirtualMachine.deepCopy, hann, List.singleton_append,
    List.cons_append, List.nil_append, hupdate, diagFromErr]

/-- The delete run when the fetched object has a nil annotations map. -/
theorem delete_run_of_nil_annotations {SG : Type} (env : Env SG) (d : ResourceData)
    (ns name : String) (vm : VirtualMachine)
    (hid : env.idParts d.id = .ok (ns, name))
    (hget : env.vmGet [] ns name = .ok vm)
    (hann : vm.annotations = none) :
    resourceVirtualMachineDelete env d =
      ⟨d, [Call.vmGet ns name], .panicked "assignment to entry in nil map"⟩ := by
  unfold resourceVirtualMachineDelete
  simp only [hid, hget, VirtualMachine.deepCopy, hann]

/-- Shape of a delete run that issued a Delete call. -/
theorem delete_trace_of_delete_call {SG : Type} (env : Env SG) (d : ResourceData)
    (ns name : String) (opts : DeleteOptions)
    (hmem : Call.vmDelete ns name opts ∈ (resourceVirtualMachineDelete env d).trace) :
    opts = ⟨some DeletionPropagation.Foreground⟩ ∧
    env.idParts d.id = .ok (ns, name) ∧
    ∃ vm annotations updated post,
      env.vmGet [] ns name = .ok vm ∧ vm.annotations = some annotations ∧
      env.vmUpdate [Call.vmGet ns name] ns
        (annotatedCopy env.removedPVCsAnnotationKey d vm annotations) = .ok updated ∧
      (resourceVirtualMachineDelete env d).trace =
        [Call.vmGet ns name,
          Call.vmUpdate ns (annotatedCopy env.removedPVCsAnnotationKey d vm annotations),
          Call.vmDelete ns name opts] ++ post ∧
      (post = [] ∨ post = [Call.vmWatch ns (watchOptions name vmDeleteTimeout)]) := by
  rcases hid : env.idParts d.id with err | ⟨ns0, name0⟩
  · simp [resourceVirtualMachineDelete, hid] at hmem
  · rcases hget : env.vmGet [] ns0 name0 with err | vm
    · unfold resourceVirtualMachineDelete at hmem
      simp only [hid, hget] at hmem
      split at hmem <;> simp at hmem
    · rcases hann : vm.annotations with _ | annotations
      · rw [delete_run_of_nil_annotations env d ns0 name0 vm hid hget hann] at hmem
        simp at hmem
      · rcases hup : env.vmUpdate [Call.vmGet ns0 name0] ns0
            (annotatedCopy env.removedPVCsAnnotationKey d vm annotations) with err | updated
        · rw [delete_run_of_update_error env d ns0 name0 vm annotations err hid hget hann hup]
            at hmem
          simp at hmem
        · obtain ⟨post, htrace, hpost⟩ :=
            delete_trace_of_update_ok env d ns0 name0 vm updated annotations hid hget hann hup
          rw [htrace] at hmem
          have hcall : ns = ns0 ∧ name = name0 ∧
              opts = ⟨some DeletionPropagation.Foreground⟩ := by
            rcases hpost with h | h <;> simpa [h] using hmem
          obtain ⟨rfl, rfl, rfl⟩ := hcall
          exact ⟨rfl, rfl, vm, annotations, updated, post, hget, hann, hup, htrace, hpost⟩

/-- C5. Order of the client calls of `resourceVirtualMachineDelete`: every Delete call in the
trace carries the foreground propagation policy and comes right after a successful Update,
in the same namespace, of the copy of the fetched object whose annotations hold the
comma-joined Removed-Volume Record under the removed-PVCs key; and when that Update fails,
the run ends with the error of the Update and its trace holds no Delete call. -/
theorem delete_update_before_delete {SG : Type} (env : Env SG) (d : ResourceData) :
    (∀ ns name opts, Call.vmDelete ns name opts ∈ (resourceVirtualMachineDelete env d).trace →
      opts.propagationPolicy = some DeletionPropagation.Foreground ∧
      ∃ vm annotations updated post,
        env.vmGet [] ns name = .ok vm ∧ vm.annotations = some annotations ∧
        env.vmUpdate [Call.vmGet ns name] ns
          (annotatedCopy env.removedPVCsAnnotationKey d vm annotations) = .ok updated ∧
        (resourceVirtualMachineDelete env d).trace =
          [Call.vmGet ns name,
            Call.vmUpdate ns (annotatedCopy env.removedPVCsAnnotationKey d vm annotations),
            Call.vmDelete ns name opts] ++ post ∧
        (post = [] ∨ post = [Call.vmWatch ns (watchOptions name vmDeleteTimeout)]) ∧
        ∃ submitted,
          (annotatedCopy env.removedPVCsAnnotationKey d vm annotations).annotations =
            some submitted ∧
          GoMap.lookup submitted env.removedPVCsAnnotationKey =
            some (stringsJoin (removedVolumeRecord d vm) ",")) ∧
    (∀ ns name vm annotations err,
      env.idParts d.id = .ok (ns, name) →
      env.vmGet [] ns name = .ok vm →
      vm.annotations = some annotations →
      env.vmUpdate [Call.vmGet ns name] ns
        (annotatedCopy env.removedPVCsAnnotationKey d vm annotations) = .error err →
      resourceVirtualMachineDelete env d =
        ⟨d, [Call.vmGet ns name,
            Call.vmUpdate ns (annotatedCopy env.removedPVCsAnnotationKey d vm annotations)],
          .returned [⟨err.msg⟩]⟩ ∧
      ∀ ns2 name2 opts2,
        Call.vmDelete ns2 name2 opts2 ∉ (resourceVirtualMachineDelete env d).trace) := by
  constructor
  · intro ns name opts hmem
    obtain ⟨hopts, _, vm, annotations, updated, post, hget, hann, hup, htrace, hpost⟩ :=
      delete_trace_of_delete_call env d ns name opts hmem
    refine ⟨by rw [hopts], vm, annotations, updated, post, hget, hann, hup, htrace, hpost,
      _, rfl, lookup_store_self _ _ _⟩
  · intro ns name vm annotations err hid hget hann hup
    have hrun := delete_run_of_update_error env d ns name vm annotations err hid hget hann hup
    refine ⟨hrun, ?_⟩
    intro ns2 name2 opts2
    rw [hrun]
    simp

/-- Instance of the call order: the update fails with a conflict, the run ends with that
error and no Delete call. -/
theorem delete_update_before_delete_witness :
    resourceVirtualMachineDelete
        (scriptedEnvUpdateFails vm1TwoVolumes ⟨"conflict", false⟩) recordKeepDisk0 =
      ⟨recordKeepDisk0, [Call.vmGet "default" "vm1",
          Call.vmUpdate "default"
            (annotatedCopy "harvesterhci.io/removedPersistentVolumeClaims" recordKeepDisk0
              vm1TwoVolumes [("owner", "team-a")])],
        .returned [⟨"conflict"⟩]⟩ ∧
    ∀ ns2 name2 opts2, Call.vmDelete ns2 name2 opts2 ∉
      (resourceVirtualMachineDelete
        (scriptedEnvUpdateFails vm1TwoVolumes ⟨"conflict", false⟩) recordKeepDisk0).trace :=
  (delete_update_before_delete
    (scriptedEnvUpdateFails vm1TwoVolumes ⟨"conflict", false⟩) recordKeepDisk0).2
    "default" "vm1" vm1TwoVolumes [("owner", "team-a")] ⟨"conflict", false⟩ rfl rfl rfl rfl

/-! ## Delete: the annotation write -/

/-- With a non-nil annotations map on the fetched object, the Update call is reached and the
submitted object holds the joined record under the removed-PVCs key. -/
theorem delete_update_reached_of_annotations {SG : Type} (env : Env SG) (d : ResourceData)
    (ns name : String) (vm : VirtualMachine) (annotations : GoMap String)
    (hid : env.idParts d.id = .ok (ns, name))
    (hget : env.vmGet [] ns name = .ok vm)
    (hann : vm.annotations = some annotations) :
    Call.vmUpdate ns (annotatedCopy env.removedPVCsAnnotationKey d vm annotations) ∈
        (resourceVirtualMachineDelete env d).trace ∧
      (annotatedCopy env.removedPVCsAnnotationKey d vm annotations).annotations =
        some (GoMap.store annotations env.removedPVCsAnnotationKey
          (stringsJoin (removedVolumeRecord d vm) ",")) := by
  refine ⟨?_, rfl⟩
  rcases hup : env.vmUpdate [Call.vmGet ns name] ns
      (annotatedCopy env.removedPVCsAnnotationKey d vm annotations) with err | updated
  · rw [delete_run_of_update_error env d ns name vm annotations err hid hget hann hup]
    simp
  · obtain ⟨post, htrace, _⟩ :=
      delete_trace_of_update_ok env d ns name vm updated annotations hid hget hann hup
    rw [htrace]
    simp

/-- C10, at the failing input. The fetch returns `vm1` with a nil annotations map: the
write of the removed-PVCs annotation on the copy panics, the run ends there, and the only
client call issued is the fetch, so no Update call is reached. -/
theorem delete_nil_annotations_panics :
    vm1NoAnnotations.deepCopy.annotations = none ∧
    resourceVirtualMachineDelete (scriptedEnv vm1NoAnnotations [] []) recordKeepDisk0 =
      ⟨recordKeepDisk0, [Call.vmGet "default" "vm1"],
        .panicked "assignment to entry in nil map"⟩ ∧
    ∀ vm, Call.vmUpdate "default" vm ∉
      (resourceVirtualMachineDelete (scriptedEnv vm1NoAnnotations [] []) recordKeepDisk0).trace := by
  refine ⟨rfl, rfl, ?_⟩
  intro vm
  have hrun : resourceVirtualMachineDelete (scriptedEnv vm1NoAnnotations [] [])
      recordKeepDisk0 =
      ⟨recordKeepDisk0, [Call.vmGet "default" "vm1"],
        .panicked "assignment to entry in nil map"⟩ := rfl
  rw [hrun]
  simp

/-! ## Create: skipping the lease wait, no rollback, the state import -/

theorem import_trace {SG : Type} (env : Env SG) (d : ResourceData) (trace : List Call)
    (vm : VirtualMachine) (vmi : Option VirtualMachineInstance) :
    (resourceVirtualMachineImport env d trace vm vmi).trace = trace := by
  unfold resourceVirtualMachineImport
  split <;> rfl

/-- Every client call of a create run is the Create call or the opening of a watch. -/
theorem create_trace_calls {SG : Type} (env : Env SG) (d : ResourceData) (c : Call)
    (hc : c ∈ (resourceVirtualMachineCreate env d).trace) :
    (∃ vm, c = Call.vmCreate d.ns vm) ∨
      c = Call.vmWatch d.ns (watchOptions d.name vmCreateTimeout) ∨
      c = Call.vmiWatch d.ns (watchOptions d.name vmLeasesTimeout) := by
  unfold resourceVirtualMachineCreate at hc
  simp only at hc
  repeat' split at hc
  all_goals simp only [import_trace] at hc
  all_goals simp at hc
  all_goals aesop

/-- C8. In `resourceVirtualMachineCreate`, when no configured interface has wait-for-lease
set, the gathered set is empty and, after a satisfied readiness wait, the run is the
state import on the created object with the calls Create and VM watch only: no instance
watch is opened, and the diagnostics are those of the state import, never the lease timeout
of the handler. -/
theorem create_skips_lease_wait {SG : Type} (env : Env SG) (d : ResourceData)
    (toCreate obj : VirtualMachine) (vmEvents : List (Event VirtualMachine))
    (hnone : ∀ ni ∈ d.networkInterface, ni.waitForLease ≠ some true)
    (hconstruct : env.constructCreator d d.ns d.name = .ok toCreate)
    (hcreate : env.vmCreate [] d.ns toCreate = .ok obj)
    (hwatch : env.vmWatch [Call.vmCreate d.ns toCreate] d.ns
      (watchOptions d.name vmCreateTimeout) = .ok vmEvents)
    (hready : readyLoop vmEvents = true) :
    gatherWaitForLeases d.networkInterface = [] ∧
    resourceVirtualMachineCreate env d =
      resourceVirtualMachineImport env d
        [Call.vmCreate d.ns toCreate, Call.vmWatch d.ns (watchOptions d.name vmCreateTimeout)]
        obj none ∧
    (resourceVirtualMachineCreate env d).trace =
      [Call.vmCreate d.ns toCreate, Call.vmWatch d.ns (watchOptions d.name vmCreateTimeout)] ∧
    (∀ ns opts, Call.vmiWatch ns opts ∉ (resourceVirtualMachineCreate env d).trace) ∧
    (resourceVirtualMachineCreate env d).outcome =
      .returned
        (match env.stateGetter obj none with
          | .error err => diagFromErr (some err)
          | .ok stateGetter => diagFromErr (env.resourceStatesSet d stateGetter).2) := by
  have hS := (gatherWaitForLeases_eq_nil_iff d.networkInterface).2 hnone
  have hrun : resourceVirtualMachineCreate env d =
      resourceVirtualMachineImport env d
        [Call.vmCreate d.ns toCreate, Call.vmWatch d.ns (watchOptions d.name vmCreateTimeout)]
        obj none := by
    simp [resourceVirtualMachineCreate, hconstruct, hcreate, hwatch, hready, hS, GoMap.len]
  refine ⟨hS, hrun, ?_, ?_, ?_⟩
  · rw [hrun, import_trace]
  · intro ns opts
    rw [hrun, import_trace]
    simp
  · rw [hrun]
    unfold resourceVirtualMachineImport
    split <;> simp_all

/-- Instance of the skipped lease wait: the only interface does not wait for a lease. -/
theorem create_skips_lease_wait_witness :
    gatherWaitForLeases recordVm1NoLease.networkInterface = [] ∧
    (resourceVirtualMachineCreate (scriptedEnv vm1 [readyEvent] []) recordVm1NoLease).trace =
      [Call.vmCreate "default" vm1,
        Call.vmWatch "default" (watchOptions "vm1" vmCreateTimeout)] ∧
    (resourceVirtualMachineCreate (scriptedEnv vm1 [readyEvent] []) recordVm1NoLease).outcome =
      .returned [] :=
  have h := create_skips_lease_wait (scriptedEnv vm1 [readyEvent] []) recordVm1NoLease vm1 vm1
    [readyEvent] (by decide) rfl rfl rfl (by decide)
  ⟨h.1, h.2.2.1, h.2.2.2.2⟩

/-- C9. No rollback in `resourceVirtualMachineCreate`: no run of the handler issues a Delete
call; when the Create call succeeded and the readiness wait ends unsatisfied the handler
returns the readiness-timeout error and opens no instance watch; and when the readiness wait
is satisfied and the lease wait ends unsatisfied it returns the lease-timeout error. -/
theorem create_no_rollback {SG : Type} (env : Env SG) (d : ResourceData) :
    (∀ ns name opts,
      Call.vmDelete ns name opts ∉ (resourceVirtualMachineCreate env d).trace) ∧
    (∀ toCreate obj vmEvents,
      env.constructCreator d d.ns d.name = .ok toCreate →
      env.vmCreate [] d.ns toCreate = .ok obj →
      env.vmWatch [Call.vmCreate d.ns toCreate] d.ns
        (watchOptions d.name vmCreateTimeout) = .ok vmEvents →
      readyLoop vmEvents = false →
      (resourceVirtualMachineCreate env d).outcome =
          .returned [⟨"Timeout waiting for VM " ++ d.name ++ " to be created"⟩] ∧
        ∀ ns opts, Call.vmiWatch ns opts ∉ (resourceVirtualMachineCreate env d).trace) ∧
    (∀ toCreate obj vmEvents events,
      env.constructCreator d d.ns d.name = .ok toCreate →
      env.vmCreate [] d.ns toCreate = .ok obj →
      env.vmWatch [Call.vmCreate d.ns toCreate] d.ns
        (watchOptions d.name vmCreateTimeout) = .ok vmEvents →
      readyLoop vmEvents = true →
      gatherWaitForLeases d.networkInterface ≠ [] →
      env.vmiWatch
        [Call.vmCreate d.ns toCreate, Call.vmWatch d.ns (watchOptions d.name vmCreateTimeout)]
        d.ns (watchOptions d.name vmLeasesTimeout) = .ok events →
      leaseLoop (gatherWaitForLeases d.networkInterface) events = false →
      (resourceVirtualMachineCreate env d).outcome =
        .returned [⟨"Timeout waiting for VM " ++ d.name ++ " to get IP address"⟩]) := by
  refine ⟨?_, ?_, ?_⟩
  · intro ns name opts hmem
    rcases create_trace_calls env d _ hmem with ⟨vm, h⟩ | h | h <;> cases h
  · intro toCreate obj vmEvents hconstruct hcreate hwatch hready
    have hrun : resourceVirtualMachineCreate env d =
        ⟨d, [Call.vmCreate d.ns toCreate,
            Call.vmWatch d.ns (watchOptions d.name vmCreateTimeout)],
          .returned [⟨"Timeout waiting for VM " ++ d.name ++ " to be created"⟩]⟩ := by
      simp [resourceVirtualMachineCreate, hconstruct, hcreate, hwatch, hready, diagErrorf]
    rw [hrun]
    simp
  · intro toCreate obj vmEvents events hconstruct hcreate hwatch hready hS hlease hloop
    have hlen : 0 < (gatherWaitForLeases d.networkInterface).len := by
      unfold GoMap.len
      exact List.length_pos.2 hS
    simp [resourceVirtualMachineCreate, hconstruct, hcreate, hwatch, hready, hlen, hlease,
      hloop, diagErrorf]

/-- Instance of the missing rollback: the lease wait times out and no Delete call is made. -/
theorem create_no_rollback_witness :
    (resourceVirtualMachineCreate (scriptedEnv vm1 [readyEvent] [leaseEvent ""])
        recordVm1).outcome =
      .returned [⟨"Timeout waiting for VM " ++ "vm1" ++ " to get IP address"⟩] ∧
    ∀ ns name opts, Call.vmDelete ns name opts ∉
      (resourceVirtualMachineCreate (scriptedEnv vm1 [readyEvent] [leaseEvent ""])
        recordVm1).trace :=
  have h := create_no_rollback (scriptedEnv vm1 [readyEvent] [leaseEvent ""]) recordVm1
  ⟨h.2.2 vm1 vm1 [readyEvent] [leaseEvent ""] rfl rfl rfl (by decide) (by decide) rfl
      (by decide), h.1⟩

/-- The read handler, the sibling path of the create, passes the fetched instance on to the
state import. -/
theorem read_imports_instance {SG : Type} (env : Env SG) (d : ResourceData)
    (ns name : String) (vm : VirtualMachine) (vmi : VirtualMachineInstance)
    (hid : env.idParts d.id = .ok (ns, name))
    (hget : env.vmGet [] ns name = .ok vm)
    (hvmi : env.vmiGet [Call.vmGet ns name] ns name = .ok vmi) :
    resourceVirtualMachineRead env d =
      resourceVirtualMachineImport env d [Call.vmGet ns name, Call.vmiGet ns name] vm
        (some vmi) := by
  simp [resourceVirtualMachineRead, resourceVirtualMachineReadFrom, hid, hget, hvmi]

/-- C4, at the scenario of the claim, for every importer. Create of `vm1` with interface
`net0` waiting for a lease, a readiness event, and an instance event reporting `net0` with
`10.0.0.5`: the state the create records is what the importer computes from the object
returned by the Create call and a nil instance, `getter vm1 none`, never from the instance
that was observed; so the run is the very same when the event reports another address. The
read handler on the same cluster does hand the instance carrying the address to the
importer. -/
theorem create_scenario_imports_no_instance {SG : Type}
    (getter : VirtualMachine → Option VirtualMachineInstance → Except Err SG)
    (setter : ResourceData → SG → ResourceData × Option Err) :
    resourceVirtualMachineCreate (scenarioEnv getter setter "10.0.0.5") recordVm1 =
      (match getter vm1 none with
        | .error err =>
          ⟨recordVm1,
            [Call.vmCreate "default" vm1,
              Call.vmWatch "default" (watchOptions "vm1" vmCreateTimeout),
              Call.vmiWatch "default" (watchOptions "vm1" vmLeasesTimeout)],
            .returned [⟨err.msg⟩]⟩
        | .ok stateGetter =>
          ⟨(setter recordVm1 stateGetter).1,
            [Call.vmCreate "default" vm1,
              Call.vmWatch "default" (watchOptions "vm1" vmCreateTimeout),
              Call.vmiWatch "default" (watchOptions "vm1" vmLeasesTimeout)],
            .returned (diagFromErr (setter recordVm1 stateGetter).2)⟩) ∧
    resourceVirtualMachineCreate (scenarioEnv getter setter "10.0.0.5") recordVm1 =
      resourceVirtualMachineCreate (scenarioEnv getter setter "192.168.7.7") recordVm1 ∧
    resourceVirtualMachineRead (scenarioEnv getter setter "10.0.0.5") recordVm1 =
      (match getter vm1 (some ⟨"vm1", [⟨"net0", "10.0.0.5"⟩]⟩) with
        | .error err =>
          ⟨recordVm1, [Call.vmGet "default" "vm1", Call.vmiGet "default" "vm1"],
            .returned [⟨err.msg⟩]⟩
        | .ok stateGetter =>
          ⟨(setter recordVm1 stateGetter).1,
            [Call.vmGet "default" "vm1", Call.vmiGet "default" "vm1"],
            .returned (diagFromErr (setter recordVm1 stateGetter).2)⟩) := by
  have hcreate : ∀ address : String, address ≠ "" →
      resourceVirtualMachineCreate (scenarioEnv getter setter address) recordVm1 =
        resourceVirtualMachineImport (scenarioEnv getter setter address) recordVm1
          [Call.vmCreate "default" vm1,
            Call.vmWatch "default" (watchOptions "vm1" vmCreateTimeout),
            Call.vmiWatch "default" (watchOptions "vm1" vmLeasesTimeout)] vm1 none := by
    intro address haddr
    have hS : gatherWaitForLeases recordVm1.networkInterface ≠ [] := by decide
    have hsat : leaseLoop (gatherWaitForLeases recordVm1.networkInterface)
        [leaseEvent address] = true := by
      rw [leaseLoop_iff _ hS]
      intro k hk
      have hk2 : k = "net0" := by
        have hkeys : (gatherWaitForLeases recordVm1.networkInterface).keys = ["net0"] := by
          decide
        rw [hkeys] at hk
        simpa using hk
      subst hk2
      exact ⟨leaseEvent address, List.mem_singleton.2 rfl, Or.inr rfl,
        ⟨"net0", address⟩, List.mem_singleton.2 rfl, rfl, haddr⟩
    have hlen : 0 < GoMap.len (gatherWaitForLeases recordVm1.networkInterface) := by decide
    have hready : readyLoop [readyEvent] = true := by decide
    unfold resourceVirtualMachineCreate
    simp only [scenarioEnv, hready, gt_iff_lt, hlen, hsat]
    rfl
  have himport : ∀ (address : String) (trace : List Call)
      (vmi : Option VirtualMachineInstance),
      resourceVirtualMachineImport (scenarioEnv getter setter address) recordVm1 trace vm1 vmi =
        (match getter vm1 vmi with
          | .error err => ⟨recordVm1, trace, .returned [⟨err.msg⟩]⟩
          | .ok stateGetter =>
            ⟨(setter recordVm1 stateGetter).1, trace,
              .returned (diagFromErr (setter recordVm1 stateGetter).2)⟩) := by
    intro address trace vmi
    unfold resourceVirtualMachineImport
    simp only [scenarioEnv]
    cases getter vm1 vmi <;> rfl
  refine ⟨?_, ?_, ?_⟩
  · rw [hcreate "10.0.0.5" (by decide), himport]
  · rw [hcreate "10.0.0.5" (by decide), hcreate "192.168.7.7" (by decide), himport, himport]
  · rw [read_imports_instance (scenarioEnv getter setter "10.0.0.5") recordVm1 "default" "vm1"
      vm1 ⟨"vm1", [⟨"net0", "10.0.0.5"⟩]⟩ rfl rfl rfl, himport]

end Harvester
